import Mathlib

/-!
Verification of the CultureBridge AI core pipeline (apps/api) against its
natural-language specification.

The Python source is shallowly embedded: dicts become association lists
(`List (String × _)`) with a first-match lookup, JSON numbers become `ℚ`,
Python string formatting is modelled by explicit concatenation, and each
agent's deterministic fallback computation becomes a pure Lean function
translated statement-by-statement from the source.
-/

namespace CultureBridge

/-- First-match lookup in an association list; models `dict.get(key)` /
`dict[key]` on Python dicts (whose keys are unique). -/
def dictLookup {α : Type} (k : String) : List (String × α) → Option α
  | [] => none
  | kv :: rest => if kv.1 = k then some kv.2 else dictLookup k rest

/-- The keys of an association list, in order; models `dict.keys()`. -/
def dictKeys {α : Type} (d : List (String × α)) : List String :=
  d.map Prod.fst

/-- Evidence entry of a cultural prior (`{"source": ..., "description": ...}`). -/
structure Evidence where
  source : String
  description : String
deriving DecidableEq

/-- Parsed form of a mapping-rule condition string.  The source stores
conditions as strings such as `">=70"` and dispatches on the prefixes
`">="`, `"<="`, `">"`, `"<"` (in that order) in
`CulturalDataLoader.get_applicable_rules`; each recognized prefix is one
constructor here, and a condition matching none of the prefixes (which the
source silently skips) is `unrecognized`. -/
inductive Cond where
  | ge (threshold : ℚ)
  | le (threshold : ℚ)
  | gt (threshold : ℚ)
  | lt (threshold : ℚ)
  | unrecognized (raw : String)
deriving DecidableEq

/-- A dimension→UX mapping rule from `dimension_ux_mapping.rules`.
The matcher reads only `dimension` and `condition`; the remaining fields
ride along as data (spec §3 "Rule"). -/
structure Rule where
  rule_id : String
  dimension : String
  condition : Cond
  effect_id : String
  rationale : String
deriving DecidableEq

/-- Stored (raw) cultural prior as it sits in the loaded data:
`country_name` is optional (`prior.get("country_name", country_code)`),
the other fields are accessed with `prior[...]` (required). -/
structure PriorData where
  country_name : Option String
  dimensions : List (String × ℚ)
  evidence : List Evidence
  notes : String
deriving DecidableEq

/-- Assembled cultural prior as returned by
`CulturalDataLoader.get_cultural_prior`. -/
structure Prior where
  country_code : String
  country_name : String
  dimensions : List (String × ℚ)
  evidence : List Evidence
  notes : String
deriving DecidableEq

/-- A uniform record for one UX module configuration dict.  The six module
dicts built by `UXAdaptationAgent._rule_based_adaptation` use different
subsets of these keys; absent keys are `none` / `false` / `[]`.
`stype` models the JSON key `"type"`. -/
structure ModuleCfg where
  enabled : Bool := false
  placement : Option String := none
  style : Option String := none
  types : List String := []
  prominence : Option String := none
  detail_level : Option String := none
  show_installments : Bool := false
  show_local_methods : Bool := false
  emphasized_methods : List String := []
  stype : Option String := none
  adaptation_rationale : String := ""
deriving DecidableEq

/-- One step of a baseline or adapted flow.  Baseline steps from the data
carry `step_id`, `name`, `description`; the adapted copies add an
`adaptations` list (plus `required_fields` / `validations` on the combined
express-checkout step). -/
structure Adaptation where
  change : String
  dimension_driver : String
  rationale : String
deriving DecidableEq

/-- Flow step record (baseline steps have empty `adaptations`,
`required_fields` and `validations`). -/
structure FlowStep where
  step_id : String
  name : String
  description : String
  adaptations : List Adaptation := []
  required_fields : List String := []
  validations : List String := []
deriving DecidableEq

/-- Baseline storefront spec for a product category
(`product_baselines[category]`). -/
structure BaseSpec where
  product_category : String
  baseline_flow : List FlowStep
  baseline_modules : List (String × ModuleCfg) := []
deriving DecidableEq

/-- The data loaded once by `CulturalDataLoader._load`:
`cultural_priors`, `dimension_ux_mapping.rules`, `product_baselines`. -/
structure CulturalData where
  cultural_priors : List (String × PriorData)
  dimension_ux_mapping_rules : List Rule
  product_baselines : List (String × BaseSpec)
deriving DecidableEq

/-- `CulturalDataLoader.get_mapping_rules`. -/
def get_mapping_rules (d : CulturalData) : List Rule :=
  d.dimension_ux_mapping_rules

/-- `CulturalDataLoader.get_applicable_rules`: iterate the rule table in
order, skip rules whose dimension is absent, test the parsed condition
against the profile value, and append matching rules to the accumulator. -/
def get_applicable_rules (d : CulturalData) (dimensions : List (String × ℚ)) :
    List Rule :=
  (get_mapping_rules d).foldl
    (fun applicable rule =>
      match dictLookup rule.dimension dimensions with
      | none => applicable
      | some value =>
        match rule.condition with
        | .ge t => if value ≥ t then applicable ++ [rule] else applicable
        | .le t => if value ≤ t then applicable ++ [rule] else applicable
        | .gt t => if value > t then applicable ++ [rule] else applicable
        | .lt t => if value < t then applicable ++ [rule] else applicable
        | .unrecognized _ => applicable)
    []

/-- Specification-side predicate (spec §4.1): the rule's
comparator/threshold test, evaluated by standard numeric comparison against
the profile's value for the rule's dimension; a rule whose dimension is
absent from the profile is not satisfied. -/
def ruleSatisfied (dimensions : List (String × ℚ)) (rule : Rule) : Bool :=
  match dictLookup rule.dimension dimensions with
  | none => false
  | some value =>
    match rule.condition with
    | .ge t => value ≥ t
    | .le t => value ≤ t
    | .gt t => value > t
    | .lt t => value < t
    | .unrecognized _ => false

theorem get_applicable_rules_body_eq (dimensions : List (String × ℚ))
    (applicable : List Rule) (rule : Rule) :
    (match dictLookup rule.dimension dimensions with
      | none => applicable
      | some value =>
        match rule.condition with
        | .ge t => if value ≥ t then applicable ++ [rule] else applicable
        | .le t => if value ≤ t then applicable ++ [rule] else applicable
        | .gt t => if value > t then applicable ++ [rule] else applicable
        | .lt t => if value < t then applicable ++ [rule] else applicable
        | .unrecognized _ => applicable)
      = (if ruleSatisfied dimensions rule then applicable ++ [rule]
          else applicable) := by
  unfold ruleSatisfied
  cases dictLookup rule.dimension dimensions with
  | none => simp
  | some value =>
    cases rule.condition with
    | ge t => by_cases h : value ≥ t <;> simp [h]
    | le t => by_cases h : value ≤ t <;> simp [h]
    | gt t => by_cases h : value > t <;> simp [h]
    | lt t => by_cases h : value < t <;> simp [h]
    | unrecognized s => simp

theorem get_applicable_rules_foldl (dimensions : List (String × ℚ))
    (rules : List Rule) (acc : List Rule) :
    rules.foldl
      (fun applicable rule =>
        match dictLookup rule.dimension dimensions with
        | none => applicable
        | some value =>
          match rule.condition with
          | .ge t => if value ≥ t then applicable ++ [rule] else applicable
          | .le t => if value ≤ t then applicable ++ [rule] else applicable
          | .gt t => if value > t then applicable ++ [rule] else applicable
          | .lt t => if value < t then applicable ++ [rule] else applicable
          | .unrecognized _ => applicable)
      acc
      = acc ++ rules.filter (ruleSatisfied dimensions) := by
  induction rules generalizing acc with
  | nil => simp
  | cons r rs ih =>
    simp only [List.foldl_cons, List.filter_cons]
    rw [get_applicable_rules_body_eq]
    by_cases h : ruleSatisfied dimensions r
    · simp [h, ih]
    · simp [h, ih]

/-- C7: the matcher returns exactly the rules whose comparator/threshold
test is satisfied by the profile, in the table's declaration order; a rule
whose dimension is absent from the profile is skipped (and the total
function never errors); and the matcher is pure, so a second call on the
same inputs yields the identical ordered sequence. -/
theorem C7_get_applicable_rules_spec (d : CulturalData)
    (dimensions : List (String × ℚ)) :
    get_applicable_rules d dimensions
        = (get_mapping_rules d).filter (ruleSatisfied dimensions)
      ∧ (∀ r : Rule, dictLookup r.dimension dimensions = none →
          r ∉ get_applicable_rules d dimensions)
      ∧ get_applicable_rules d dimensions = get_applicable_rules d dimensions := by
  have hmain : get_applicable_rules d dimensions
      = (get_mapping_rules d).filter (ruleSatisfied dimensions) := by
    unfold get_applicable_rules
    simpa using get_applicable_rules_foldl dimensions (get_mapping_rules d) []
  refine ⟨hmain, ?_, rfl⟩
  intro r habsent hmem
  rw [hmain] at hmem
  have := List.of_mem_filter hmem
  rw [ruleSatisfied, habsent] at this
  simp at this

/-- `CulturalDataLoader.get_cultural_prior`: look the country up in the
stored priors and assemble a result dict around the stored fields.  Python's
`if prior:` truthiness test is modelled by presence of the stored record
(a stored prior is a non-empty dict). -/
def get_cultural_prior (d : CulturalData) (country_code : String) :
    Option Prior :=
  match dictLookup country_code d.cultural_priors with
  | none => none
  | some prior =>
    some { country_code := country_code
           country_name := prior.country_name.getD country_code
           dimensions := prior.dimensions
           evidence := prior.evidence
           notes := prior.notes }

/-- One override assignment:
`if dim_key in prior["dimensions"]: prior["dimensions"][dim_key] = dim_value`.
Keys already present are updated in place; unknown keys are ignored. -/
def setIfPresent (dims : List (String × ℚ)) (k : String) (v : ℚ) :
    List (String × ℚ) :=
  if k ∈ dictKeys dims then
    dims.map (fun kv => if kv.1 = k then (kv.1, v) else kv)
  else dims

/-- The override loop of `get_cultural_prior_with_overrides`:
`for dim_key, dim_value in overrides.items(): ...`. -/
def applyOverrides (dims : List (String × ℚ)) (overrides : List (String × ℚ)) :
    List (String × ℚ) :=
  overrides.foldl (fun acc kv => setIfPresent acc kv.1 kv.2) dims

/-- Replace the stored dimension dict of one country's prior (helper used
to express the in-place mutation performed through the alias below). -/
def updatePriorDims (priors : List (String × PriorData)) (country_code : String)
    (newDims : List (String × ℚ)) : List (String × PriorData) :=
  priors.map (fun p =>
    if p.1 = country_code then (p.1, { p.2 with dimensions := newDims }) else p)

/-- `CulturalDataLoader.get_cultural_prior_with_overrides`.  In the source,
`get_cultural_prior` returns a fresh outer dict whose `"dimensions"` entry
ALIASES the stored prior's dimensions dict; the override loop assigns into
that dict in place, so the stored prior's dimensions mutate too, while the
`notes += ...` rebinding only affects the returned copy.  The embedding
makes this state change explicit by returning the updated `CulturalData`
alongside the result.  The guard `if prior and overrides:` means an empty
override dict causes no mutation and no notes suffix. -/
def get_cultural_prior_with_overrides (d : CulturalData) (country_code : String)
    (overrides : List (String × ℚ)) : Option Prior × CulturalData :=
  match get_cultural_prior d country_code with
  | none => (none, d)
  | some prior =>
    if overrides = [] then (some prior, d)
    else
      let newDims := applyOverrides prior.dimensions overrides
      (some { prior with
                dimensions := newDims
                notes := prior.notes ++ " [Manual overrides applied to some dimensions]" },
       { d with cultural_priors := updatePriorDims d.cultural_priors country_code newDims })

/-- A cultural behavior profile as returned by
`CulturalIntelligenceAgent.analyze`. -/
structure Profile where
  country_code : String
  dimensions : List (String × ℚ)
  evidence : List Evidence
  notes : String
  rationale : String
  dimension_rationales : List (String × String)
deriving DecidableEq

/-- The fixed set of 7 behavioral dimension names (spec §3). -/
def dimensionNames : List String :=
  ["uncertainty_avoidance", "collectivism", "authority_distance",
   "context_level", "price_sensitivity", "trust_need", "friction_tolerance"]

/-- `CulturalIntelligenceAgent._default_profile`. -/
def default_profile (country_code : String) : Profile :=
  { country_code := country_code
    dimensions :=
      [("uncertainty_avoidance", 50), ("collectivism", 50),
       ("authority_distance", 50), ("context_level", 50),
       ("price_sensitivity", 50), ("trust_need", 50),
       ("friction_tolerance", 50)]
    evidence :=
      [{ source := "Default baseline"
         description := "No specific cultural data available; using neutral midpoint values." }]
    notes := "No cultural priors available for " ++ country_code ++ ". Using default neutral values."
    rationale := "Default neutral profile applied due to missing cultural data."
    dimension_rationales := [] }

/-- `CulturalIntelligenceAgent.analyze` restricted to its non-LLM fallback
path: load the prior with overrides (lines 81-88); if absent return
`_default_profile`; otherwise (the `generate_structured` result carried no
`"dimensions"` or was a fallback signal) return the base priors as-is
(lines 131-140). -/
def analyze_fallback (d : CulturalData) (country_code product_category : String)
    (override_dimensions : List (String × ℚ)) : Profile :=
  match (get_cultural_prior_with_overrides d country_code override_dimensions).1 with
  | none => default_profile country_code
  | some base_prior =>
    { country_code := country_code
      dimensions := base_prior.dimensions
      evidence := base_prior.evidence
      notes := base_prior.notes
      rationale := "Base cultural priors for " ++ country_code ++ " in "
        ++ product_category ++ " context. LLM enrichment not available."
      dimension_rationales := [] }

theorem dictLookup_mem {α : Type} {k : String} {v : α} :
    ∀ {d : List (String × α)}, dictLookup k d = some v → (k, v) ∈ d := by
  intro d
  induction d with
  | nil => intro h; simp [dictLookup] at h
  | cons kv rest ih =>
    intro h
    rw [dictLookup] at h
    split at h
    · rename_i heq
      injection h with h2
      have hkv : kv = (k, v) := by cases kv; simp_all
      rw [hkv]
      exact List.mem_cons_self _ _
    · exact List.mem_cons_of_mem _ (ih h)

theorem dictLookup_eq_none_of_not_mem {α : Type} {k : String} :
    ∀ {d : List (String × α)}, k ∉ dictKeys d → dictLookup k d = none := by
  intro d
  induction d with
  | nil => intro _; rfl
  | cons kv rest ih =>
    intro h
    simp [dictKeys] at h
    rw [dictLookup, if_neg (fun he => h.1 he.symm)]
    exact ih (by simp [dictKeys, h.2])

theorem keys_map_of_fst_eq {α : Type} (g : String × α → String × α)
    (h : ∀ kv, (g kv).1 = kv.1) (d : List (String × α)) :
    dictKeys (d.map g) = dictKeys d := by
  induction d with
  | nil => rfl
  | cons kv rest ih =>
    show (g kv).1 :: dictKeys (rest.map g) = kv.1 :: dictKeys rest
    rw [h kv, ih]

theorem setIfPresent_keys (d : List (String × ℚ)) (k : String) (v : ℚ) :
    dictKeys (setIfPresent d k v) = dictKeys d := by
  unfold setIfPresent
  split
  · exact keys_map_of_fst_eq _ (fun kv => by by_cases h : kv.1 = k <;> simp [h]) d
  · rfl

theorem applyOverrides_keys (overrides : List (String × ℚ)) :
    ∀ dims : List (String × ℚ),
      dictKeys (applyOverrides dims overrides) = dictKeys dims := by
  induction overrides with
  | nil => intro dims; rfl
  | cons kv rest ih =>
    intro dims
    show dictKeys (applyOverrides (setIfPresent dims kv.1 kv.2) rest) = _
    rw [ih, setIfPresent_keys]

theorem setIfPresent_values (P : ℚ → Prop) {d : List (String × ℚ)}
    {k : String} {v : ℚ} (h1 : ∀ kv ∈ d, P kv.2) (h2 : P v) :
    ∀ kv ∈ setIfPresent d k v, P kv.2 := by
  intro kv hm
  unfold setIfPresent at hm
  split at hm
  · obtain ⟨kv0, hkv0, heq⟩ := List.mem_map.mp hm
    by_cases hk : kv0.1 = k
    · rw [if_pos hk] at heq
      rw [← heq]
      exact h2
    · rw [if_neg hk] at heq
      rw [← heq]
      exact h1 kv0 hkv0
  · exact h1 kv hm

theorem applyOverrides_values (P : ℚ → Prop) {overrides : List (String × ℚ)} :
    ∀ {dims : List (String × ℚ)}, (∀ kv ∈ dims, P kv.2) →
      (∀ kv ∈ overrides, P kv.2) →
      ∀ kv ∈ applyOverrides dims overrides, P kv.2 := by
  induction overrides with
  | nil => intro dims h1 _; exact h1
  | cons kv0 rest ih =>
    intro dims h1 h2 kv hm
    have hstep : ∀ kv ∈ setIfPresent dims kv0.1 kv0.2, P kv.2 :=
      setIfPresent_values P h1 (h2 kv0 (by simp))
    exact ih hstep (fun kv h => h2 kv (by simp [h])) kv hm

theorem lookup_map_set {d : List (String × ℚ)} {k : String} (v : ℚ)
    (hk : k ∈ dictKeys d) :
    dictLookup k (d.map (fun kv => if kv.1 = k then (kv.1, v) else kv))
      = some v := by
  induction d with
  | nil => simp [dictKeys] at hk
  | cons kv0 rest ih =>
    by_cases h : kv0.1 = k
    · simp [dictLookup, h]
    · simp only [List.map_cons, if_neg h, dictLookup, h, if_false]
      simp [dictKeys] at hk
      rcases hk with hk | hk
      · exact absurd hk.symm h
      · exact ih (by simp [dictKeys, hk])

theorem setIfPresent_lookup_self {d : List (String × ℚ)} {k : String} (v : ℚ)
    (hk : k ∈ dictKeys d) :
    dictLookup k (setIfPresent d k v) = some v := by
  unfold setIfPresent
  rw [if_pos hk]
  exact lookup_map_set v hk

theorem lookup_map_set_ne {k k' : String} (v : ℚ) (hne : k' ≠ k) :
    ∀ d : List (String × ℚ),
      dictLookup k' (d.map (fun kv => if kv.1 = k then (kv.1, v) else kv))
        = dictLookup k' d := by
  intro d
  induction d with
  | nil => rfl
  | cons kv0 rest ih =>
    show dictLookup k' ((if kv0.1 = k then (kv0.1, v) else kv0) :: _)
        = dictLookup k' (kv0 :: rest)
    by_cases h : kv0.1 = k
    · rw [if_pos h]
      have hne2 : ¬ kv0.1 = k' := fun he => hne (he.symm.trans h)
      show (if kv0.1 = k' then some v else _) = _
      rw [if_neg hne2, dictLookup, if_neg hne2, ih]
    · rw [if_neg h]
      show (if kv0.1 = k' then some kv0.2 else _) = _
      rw [dictLookup]
      by_cases h2 : kv0.1 = k'
      · rw [if_pos h2, if_pos h2]
      · rw [if_neg h2, if_neg h2, ih]

theorem setIfPresent_lookup_ne {d : List (String × ℚ)} {k k' : String}
    (v : ℚ) (hne : k' ≠ k) :
    dictLookup k' (setIfPresent d k v) = dictLookup k' d := by
  unfold setIfPresent
  split
  · exact lookup_map_set_ne v hne d
  · rfl

theorem applyOverrides_lookup_not_mem {overrides : List (String × ℚ)}
    {k : String} (hk : k ∉ overrides.map Prod.fst) :
    ∀ dims : List (String × ℚ),
      dictLookup k (applyOverrides dims overrides) = dictLookup k dims := by
  induction overrides with
  | nil => intro dims; rfl
  | cons kv0 rest ih =>
    intro dims
    simp only [List.map_cons, List.mem_cons] at hk
    push_neg at hk
    show dictLookup k (applyOverrides (setIfPresent dims kv0.1 kv0.2) rest) = _
    rw [ih hk.2, setIfPresent_lookup_ne _ hk.1]

theorem applyOverrides_lookup_mem {overrides : List (String × ℚ)}
    {k : String} {v : ℚ} (hnodup : (overrides.map Prod.fst).Nodup)
    (hmem : (k, v) ∈ overrides) :
    ∀ dims : List (String × ℚ), k ∈ dictKeys dims →
      dictLookup k (applyOverrides dims overrides) = some v := by
  induction overrides with
  | nil => simp at hmem
  | cons kv0 rest ih =>
    intro dims hk
    simp only [List.map_cons, List.nodup_cons] at hnodup
    rcases List.mem_cons.mp hmem with heq | hrest
    · subst heq
      show dictLookup k (applyOverrides (setIfPresent dims k v) rest) = some v
      rw [applyOverrides_lookup_not_mem hnodup.1]
      exact setIfPresent_lookup_self v hk
    · have hkrest : k ∈ rest.map Prod.fst :=
        List.mem_map.mpr ⟨(k, v), hrest, rfl⟩
      show dictLookup k (applyOverrides (setIfPresent dims kv0.1 kv0.2) rest) = some v
      exact ih hnodup.2 hrest _ (by rw [setIfPresent_keys]; exact hk)

/-- C2: on the non-LLM fallback path, for every country code and every set
of overrides (with in-range values, as guaranteed by request validation),
the resolved profile carries exactly the 7 defined dimensions, each in
[0,100] — assuming the stored priors are well-formed, which is the data
invariant of spec §3; and when no stored prior exists for the region the
agent returns the defined neutral profile (all dimensions 50, a single
synthetic evidence entry, a non-empty explanatory note) instead of
failing. -/
theorem C2_analyze_fallback_profile (d : CulturalData)
    (cc pc : String) (ovs : List (String × ℚ))
    (hwf : ∀ e ∈ d.cultural_priors, dictKeys e.2.dimensions = dimensionNames
      ∧ ∀ kv ∈ e.2.dimensions, 0 ≤ kv.2 ∧ kv.2 ≤ 100)
    (hov : ∀ kv ∈ ovs, 0 ≤ kv.2 ∧ kv.2 ≤ 100) :
    dictKeys (analyze_fallback d cc pc ovs).dimensions = dimensionNames
    ∧ (∀ kv ∈ (analyze_fallback d cc pc ovs).dimensions, 0 ≤ kv.2 ∧ kv.2 ≤ 100)
    ∧ (dictLookup cc d.cultural_priors = none →
        analyze_fallback d cc pc ovs = default_profile cc
        ∧ (∀ kv ∈ (default_profile cc).dimensions, kv.2 = 50)
        ∧ (default_profile cc).evidence.length = 1
        ∧ (default_profile cc).notes ≠ "") := by
  have hdefault_keys : dictKeys (default_profile cc).dimensions = dimensionNames := rfl
  have hdefault_vals : ∀ kv ∈ (default_profile cc).dimensions, kv.2 = 50 := by
    intro kv hkv
    simp only [default_profile, List.mem_cons, List.not_mem_nil, or_false] at hkv
    rcases hkv with h | h | h | h | h | h | h <;> rw [h]
  cases hl : dictLookup cc d.cultural_priors with
  | none =>
    have hfall : analyze_fallback d cc pc ovs = default_profile cc := by
      unfold analyze_fallback get_cultural_prior_with_overrides get_cultural_prior
      rw [hl]
    refine ⟨by rw [hfall]; exact hdefault_keys, ?_, ?_⟩
    · rw [hfall]
      intro kv hkv
      rw [hdefault_vals kv hkv]
      norm_num
    · intro _
      refine ⟨hfall, hdefault_vals, rfl, ?_⟩
      intro hcontra
      have hlen := congrArg String.length hcontra
      simp only [default_profile] at hlen
      rw [String.length_append, String.length_append] at hlen
      have h1 : 0 < ("No cultural priors available for ").length := by decide
      have h2 : (("" : String)).length = 0 := rfl
      omega
  | some pd =>
    have hpd := hwf (cc, pd) (dictLookup_mem hl)
    have hdims : (analyze_fallback d cc pc ovs).dimensions
        = applyOverrides pd.dimensions ovs
        ∨ (analyze_fallback d cc pc ovs).dimensions = pd.dimensions := by
      unfold analyze_fallback get_cultural_prior_with_overrides get_cultural_prior
      rw [hl]
      by_cases hovs : ovs = []
      · right; simp [hovs]
      · left; simp [hovs]
    refine ⟨?_, ?_, ?_⟩
    · rcases hdims with h | h <;> rw [h]
      · rw [applyOverrides_keys]; exact hpd.1
      · exact hpd.1
    · rcases hdims with h | h <;> rw [h]
      · exact applyOverrides_values (fun x => 0 ≤ x ∧ x ≤ 100) hpd.2 hov
      · exact hpd.2
    · intro hcontra
      exact Option.noConfusion hcontra

/-- C3: with a stored prior present, an override whose key is a known
dimension key (a key of the stored dimension dict, which carries the 7
defined dimensions) yields exactly the override value for that dimension in
the resolved prior; an override with an unknown key is silently ignored —
the (total) resolver does not error, the key set of the result equals the
key set of the stored prior, and the unknown key does not appear in the
result. -/
theorem C3_override_semantics (d : CulturalData) (cc : String)
    (ovs : List (String × ℚ)) (p : Prior)
    (hp : get_cultural_prior d cc = some p)
    (hnodup : (ovs.map Prod.fst).Nodup) :
    ∃ q : Prior, (get_cultural_prior_with_overrides d cc ovs).1 = some q
      ∧ dictKeys q.dimensions = dictKeys p.dimensions
      ∧ (∀ k v, (k, v) ∈ ovs → k ∈ dictKeys p.dimensions →
          dictLookup k q.dimensions = some v)
      ∧ (∀ k, k ∉ dictKeys p.dimensions → dictLookup k q.dimensions = none) := by
  unfold get_cultural_prior_with_overrides
  rw [hp]
  by_cases hovs : ovs = []
  · subst hovs
    refine ⟨p, rfl, rfl, ?_, ?_⟩
    · intro k v hk; simp at hk
    · intro k hk
      exact dictLookup_eq_none_of_not_mem hk
  · refine ⟨{ p with
        dimensions := applyOverrides p.dimensions ovs
        notes := p.notes ++ " [Manual overrides applied to some dimensions]" },
      by simp [hovs], ?_, ?_, ?_⟩
    · show dictKeys (applyOverrides p.dimensions ovs) = dictKeys p.dimensions
      exact applyOverrides_keys ovs p.dimensions
    · intro k v hkv hk
      exact applyOverrides_lookup_mem hnodup hkv p.dimensions hk
    · intro k hk
      apply dictLookup_eq_none_of_not_mem
      show k ∉ dictKeys (applyOverrides p.dimensions ovs)
      rw [applyOverrides_keys]
      exact hk

/-- Concrete illustrative stored prior (Japan, dimension values as in the
repository's unit-test fixtures). -/
def japanPriorData : PriorData :=
  { country_name := some "Japan"
    dimensions :=
      [("uncertainty_avoidance", 82), ("collectivism", 78),
       ("authority_distance", 54), ("context_level", 85),
       ("price_sensitivity", 45), ("trust_need", 88),
       ("friction_tolerance", 72)]
    evidence := [{ source := "Hofstede Insights"
                   description := "Cross-cultural dimension research" }]
    notes := "Illustrative stored prior" }

/-- A one-country loader state used as concrete input. -/
def japanData : CulturalData :=
  { cultural_priors := [("JP", japanPriorData)]
    dimension_ux_mapping_rules := []
    product_baselines := [] }

theorem C2_analyze_fallback_profile_witness :
    (∀ e ∈ japanData.cultural_priors,
        dictKeys e.2.dimensions = dimensionNames
        ∧ ∀ kv ∈ e.2.dimensions, 0 ≤ kv.2 ∧ kv.2 ≤ 100)
    ∧ (dictKeys (analyze_fallback japanData "XX" "electronics" []).dimensions
          = dimensionNames
        ∧ (∀ kv ∈ (analyze_fallback japanData "XX" "electronics" []).dimensions,
            0 ≤ kv.2 ∧ kv.2 ≤ 100)
        ∧ (dictLookup "XX" japanData.cultural_priors = none →
            analyze_fallback japanData "XX" "electronics" [] = default_profile "XX"
            ∧ (∀ kv ∈ (default_profile "XX").dimensions, kv.2 = 50)
            ∧ (default_profile "XX").evidence.length = 1
            ∧ (default_profile "XX").notes ≠ "")) :=
  ⟨by decide, C2_analyze_fallback_profile japanData "XX" "electronics" []
      (by decide) (by decide)⟩

theorem C3_override_semantics_witness :
    (get_cultural_prior japanData "JP"
        = some { country_code := "JP", country_name := "Japan"
                 dimensions := japanPriorData.dimensions
                 evidence := japanPriorData.evidence
                 notes := japanPriorData.notes })
    ∧ (∃ q : Prior,
        (get_cultural_prior_with_overrides japanData "JP"
            [("uncertainty_avoidance", 50), ("not_a_dimension", 99)]).1 = some q
        ∧ dictKeys q.dimensions = dictKeys japanPriorData.dimensions
        ∧ (∀ k v, (k, v) ∈ [("uncertainty_avoidance", (50 : ℚ)), ("not_a_dimension", 99)]
            → k ∈ dictKeys japanPriorData.dimensions
            → dictLookup k q.dimensions = some v)
        ∧ (∀ k, k ∉ dictKeys japanPriorData.dimensions →
            dictLookup k q.dimensions = none)) :=
  ⟨by decide,
    C3_override_semantics japanData "JP"
      [("uncertainty_avoidance", 50), ("not_a_dimension", 99)]
      { country_code := "JP", country_name := "Japan"
        dimensions := japanPriorData.dimensions
        evidence := japanPriorData.evidence
        notes := japanPriorData.notes }
      (by decide) (by decide)⟩

/-- C6 (code defect, evaluated at the failing input): resolving a profile
with an override MUTATES the stored prior through the aliased dimensions
dict — afterwards `get_cultural_prior` on the same loader returns the
overridden value 50 where the stored prior held 82, contradicting the
spec's read-only-after-load invariant. -/
theorem C6_stored_prior_mutated_by_overrides :
    ((get_cultural_prior japanData "JP").map
        (fun p => dictLookup "uncertainty_avoidance" p.dimensions))
      = some (some 82)
    ∧ ((get_cultural_prior
          ((get_cultural_prior_with_overrides japanData "JP"
              [("uncertainty_avoidance", 50)]).2) "JP").map
        (fun p => dictLookup "uncertainty_avoidance" p.dimensions))
      = some (some 50)
    ∧ (50 : ℚ) ≠ 82 := by
  refine ⟨by decide, by decide, by decide⟩

/-- Does the text start with the pattern (on character lists)? -/
def startsWithChars : List Char → List Char → Bool
  | [], _ => true
  | _ :: _, [] => false
  | c :: cs, d :: ds => (c = d) && startsWithChars cs ds

/-- Does the pattern occur as a contiguous run of the text? -/
def hasSubstrChars (pattern : List Char) : List Char → Bool
  | [] => pattern.isEmpty
  | d :: ds => startsWithChars pattern (d :: ds) || hasSubstrChars pattern ds

/-- Substring test; models Python's `needle in haystack`. -/
def strContains (haystack needle : String) : Bool :=
  hasSubstrChars needle.toList haystack.toList

/-- The fixed list of essentializing lexical patterns scanned by
`ComplianceAuditorAgent._rule_based_audit`. -/
def essentializing_patterns : List String :=
  ["always", "never", "all people in", "everyone in",
   "they always", "they never", "people in", "typical of"]

/-- The fixed list of dimension-name tokens and abbreviations a module
rationale must reference. -/
def dimension_tokens : List String :=
  ["uncertainty", "collectivism", "authority", "context",
   "price", "trust", "friction", "ua=", "cl="]

/-- A value of the audited variant's `copy` dict: either a copy-entry dict
with `text` / `rationale` (read with `.get(..., "")`), or a non-dict value,
which the `isinstance(value, dict)` guard skips (e.g. the `microcopy`
list). -/
inductive CopyVal where
  | obj (text : String) (rationale : String)
  | nonDict
deriving DecidableEq

/-- A value of the audited variant's `modules` dict: a module dict with an
`adaptation_rationale` (read with `.get(..., "")`; a missing key behaves as
`""`), or a non-dict value skipped by the `isinstance` guard. -/
inductive ModVal where
  | obj (adaptation_rationale : String)
  | nonDict
deriving DecidableEq

/-- A risk flag emitted by the audit. -/
structure RiskFlag where
  flag_id : String
  severity : String
  description : String
  recommendation : String
  affected_element : String
deriving DecidableEq

/-- Zero-padded three-digit rendering; models Python's f-string `{n:03d}`. -/
def fmt3 (n : ℕ) : String :=
  if n < 10 then "00" ++ toString n
  else if n < 100 then "0" ++ toString n
  else toString n

/-- The audited variant, carrying exactly the fields
`ComplianceAuditorAgent._rule_based_audit` reads.  Flow steps always carry
`step_id` / `name` here (the source defaults to `"unknown"` for missing
keys); a flow adaptation's missing or empty `dimension_driver` is modelled
as `""` (both are falsy under `adaptation.get("dimension_driver")`). -/
structure AuditVariant where
  copy : List (String × CopyVal)
  modules : List (String × ModVal)
  flow : List FlowStep
  cultural_profile : Profile
deriving DecidableEq

/-- Mutable state threaded through the audit loops:
`risk_flags`, `flag_counter`, `score`. -/
structure AuditState where
  risk_flags : List RiskFlag
  flag_counter : ℕ
  score : ℤ
deriving DecidableEq

/-- Emit one flag: the counter was already incremented when the flag was
built, the flag is appended, and the deduction applied. -/
def pushFlag (st : AuditState) (flag : RiskFlag) (deduction : ℤ) : AuditState :=
  { risk_flags := st.risk_flags ++ [flag]
    flag_counter := st.flag_counter + 1
    score := st.score - deduction }

/-- Does this pattern fire for a copy field?
`pattern.lower() in text.lower() or pattern.lower() in rationale.lower()`. -/
def copyPatternHit (text rationale pattern : String) : Bool :=
  strContains text.toLower pattern.toLower
    || strContains rationale.toLower pattern.toLower

/-- The flag built for one essentializing-pattern match. -/
def copyFlag (strict_mode : Bool) (key : String) (n : ℕ) (pattern : String) :
    RiskFlag :=
  { flag_id := "FLAG_" ++ fmt3 n
    severity := if strict_mode = false then "medium" else "high"
    description := "Potentially essentializing language detected in " ++ key
      ++ ": contains \x27" ++ pattern ++ "\x27"
    recommendation := "Rephrase to avoid generalizing statements. Use dimension-specific language instead."
    affected_element := "copy." ++ key }

/-- Process one entry of the `copy` dict: scan text and rationale for every
essentializing pattern; each match emits a flag and subtracts 10. -/
def auditCopyEntry (strict_mode : Bool) (st : AuditState)
    (kv : String × CopyVal) : AuditState :=
  match kv.2 with
  | .nonDict => st
  | .obj text rationale =>
    essentializing_patterns.foldl
      (fun st pattern =>
        if copyPatternHit text rationale pattern then
          pushFlag st (copyFlag strict_mode kv.1 (st.flag_counter + 1) pattern) 10
        else st)
      st

/-- Is this module value a dict whose (non-empty) rationale fails to
reference any dimension token?  Mirrors
`if rationale and not any(dim in rationale.lower() for dim in [...])`:
an EMPTY rationale is falsy and therefore never flagged. -/
def moduleUnjustified : ModVal → Bool
  | .nonDict => false
  | .obj rationale =>
    (!(rationale = "")) && !(dimension_tokens.any (fun dim => strContains rationale.toLower dim))

/-- The flag built for a module rationale lacking a dimension reference. -/
def moduleFlag (mod_name : String) (n : ℕ) : RiskFlag :=
  { flag_id := "FLAG_" ++ fmt3 n
    severity := "low"
    description := "Module \x27" ++ mod_name ++ "\x27 rationale may not reference specific behavioral dimensions"
    recommendation := "Ensure rationale explicitly references dimension scores and mapping rules."
    affected_element := "modules." ++ mod_name }

/-- Process one entry of the `modules` dict. -/
def auditModuleEntry (st : AuditState) (kv : String × ModVal) : AuditState :=
  if moduleUnjustified kv.2 then
    pushFlag st (moduleFlag kv.1 (st.flag_counter + 1)) 5
  else st

/-- The flag built for a flow adaptation without a dimension driver. -/
def flowFlag (step : FlowStep) (n : ℕ) : RiskFlag :=
  { flag_id := "FLAG_" ++ fmt3 n
    severity := "medium"
    description := "Flow step \x27" ++ step.name ++ "\x27 adaptation lacks dimension driver"
    recommendation := "Add specific dimension and score that drives this adaptation."
    affected_element := "flow." ++ step.step_id }

/-- Process one adaptation of one flow step. -/
def auditFlowAdaptation (step : FlowStep) (st : AuditState)
    (a : Adaptation) : AuditState :=
  if a.dimension_driver == "" then
    pushFlag st (flowFlag step (st.flag_counter + 1)) 8
  else st

/-- The audit result dict. -/
structure AuditResult where
  audit_score : ℤ
  summary : String
  risk_flags : List RiskFlag
  recommended_changes : List String
  positive_notes : List String
  rationale : String
deriving DecidableEq

/-- `ComplianceAuditorAgent._rule_based_audit`: scan copy for
essentializing patterns (-10 each), flag module rationales that are
non-empty yet reference no dimension token (-5 each), flag flow adaptations
without a dimension driver (-8 each), take positive notes, apply the
flat strict-mode penalty (floored at 0), and clamp to [0,100]. -/
def rule_based_audit (variant : AuditVariant) (strict_mode : Bool) :
    AuditResult :=
  let st0 : AuditState := { risk_flags := [], flag_counter := 0, score := 100 }
  let st1 := variant.copy.foldl (auditCopyEntry strict_mode) st0
  let st2 := variant.modules.foldl auditModuleEntry st1
  let st3 := variant.flow.foldl
    (fun st step => step.adaptations.foldl (auditFlowAdaptation step) st) st2
  let positive_notes :=
    (if st3.risk_flags.length = 0
      then ["All adaptations include dimension-based justification"] else [])
    ++ (if variant.cultural_profile.evidence ≠ []
        then ["Cultural profile includes evidence sources"] else [])
    ++ (if variant.cultural_profile.notes ≠ ""
        then ["Cultural profile acknowledges limitations in notes"] else [])
  let score4 : ℤ := if strict_mode then max 0 (st3.score - 10) else st3.score
  let final_score : ℤ := max 0 (min 100 score4)
  { audit_score := final_score
    summary := "Rule-based audit complete. Score: " ++ toString final_score
      ++ "/100 with " ++ toString st3.risk_flags.length ++ " flags identified."
    risk_flags := st3.risk_flags
    recommended_changes := []
    positive_notes := positive_notes
    rationale := "Audit performed using rule-based checks (LLM not available). Checks include: essentializing language detection, dimension justification verification, and flow adaptation coverage." }

/-- Number of essentializing-pattern matches over all dict-valued copy
fields (spec §4.5, first deduction class). -/
def patternMatchCount (copy : List (String × CopyVal)) : ℕ :=
  (copy.map (fun kv =>
    match kv.2 with
    | .nonDict => 0
    | .obj text rationale =>
      (essentializing_patterns.filter (copyPatternHit text rationale)).length)).sum

/-- Number of module entries whose non-empty rationale references no
dimension token (the corrected second deduction class). -/
def unjustifiedModuleCount (modules : List (String × ModVal)) : ℕ :=
  (modules.filter (fun kv => moduleUnjustified kv.2)).length

/-- Number of flow adaptations with an empty dimension driver (third
deduction class). -/
def driverlessCount (flow : List FlowStep) : ℕ :=
  (flow.map (fun step =>
    (step.adaptations.filter (fun a => a.dimension_driver == "")).length)).sum

theorem foldl_pushFlag {α : Type} (p : α → Bool) (mk : ℕ → α → RiskFlag)
    (sev : String) (deduction : ℤ)
    (hsev : ∀ n x, (mk n x).severity = sev) :
    ∀ (l : List α) (st : AuditState),
      ((l.foldl
          (fun st x =>
            if p x then pushFlag st (mk (st.flag_counter + 1) x) deduction
            else st) st).score
          = st.score - deduction * ((l.filter p).length : ℤ))
      ∧ ((l.foldl
          (fun st x =>
            if p x then pushFlag st (mk (st.flag_counter + 1) x) deduction
            else st) st).risk_flags.map RiskFlag.severity
          = st.risk_flags.map RiskFlag.severity
            ++ List.replicate (l.filter p).length sev) := by
  intro l
  induction l with
  | nil => intro st; simp
  | cons x xs ih =>
    intro st
    rw [List.foldl_cons]
    cases hx : p x with
    | false =>
      rw [if_neg (by simp [hx])]
      rw [List.filter_cons_of_neg (by simp [hx])]
      exact ih st
    | true =>
      rw [if_pos rfl]
      obtain ⟨h2s, h2f⟩ := ih (pushFlag st (mk (st.flag_counter + 1) x) deduction)
      rw [List.filter_cons_of_pos hx]
      constructor
      · rw [h2s]
        show st.score - deduction - deduction * ((xs.filter p).length : ℤ) = _
        rw [List.length_cons]
        push_cast
        ring
      · rw [h2f]
        show (st.risk_flags ++ [mk (st.flag_counter + 1) x]).map RiskFlag.severity
            ++ List.replicate (xs.filter p).length sev = _
        rw [List.map_append]
        simp [hsev, List.replicate_succ, List.append_assoc]

theorem copy_phase (strict_mode : Bool) :
    ∀ (copy : List (String × CopyVal)) (st : AuditState),
      ((copy.foldl (auditCopyEntry strict_mode) st).score
          = st.score - 10 * (patternMatchCount copy : ℤ))
      ∧ ((copy.foldl (auditCopyEntry strict_mode) st).risk_flags.map RiskFlag.severity
          = st.risk_flags.map RiskFlag.severity
            ++ List.replicate (patternMatchCount copy)
                (if strict_mode = false then "medium" else "high")) := by
  intro copy
  induction copy with
  | nil => intro st; simp [patternMatchCount]
  | cons kv rest ih =>
    intro st
    rw [List.foldl_cons]
    obtain ⟨hrs, hrf⟩ := ih (auditCopyEntry strict_mode st kv)
    cases hv : kv.2 with
    | nonDict =>
      have hstep : auditCopyEntry strict_mode st kv = st := by
        simp [auditCopyEntry, hv]
      have hcnt : patternMatchCount (kv :: rest) = patternMatchCount rest := by
        simp [patternMatchCount, hv]
      rw [hstep] at hrs hrf
      rw [hstep, hcnt]
      exact ⟨hrs, hrf⟩
    | obj text rationale =>
      have hinner := foldl_pushFlag (copyPatternHit text rationale)
        (copyFlag strict_mode kv.1)
        (if strict_mode = false then "medium" else "high") 10
        (fun n x => rfl) essentializing_patterns st
      have hstep : auditCopyEntry strict_mode st kv
          = essentializing_patterns.foldl
              (fun st pattern =>
                if copyPatternHit text rationale pattern then
                  pushFlag st
                    (copyFlag strict_mode kv.1 (st.flag_counter + 1) pattern) 10
                else st) st := by
        simp [auditCopyEntry, hv]
      have hcnt : patternMatchCount (kv :: rest)
          = (essentializing_patterns.filter (copyPatternHit text rationale)).length
            + patternMatchCount rest := by
        simp [patternMatchCount, hv]
      rw [hcnt]
      constructor
      · rw [hrs, hstep, hinner.1]
        push_cast
        ring
      · rw [hrf, hstep, hinner.2]
        rw [List.replicate_add, List.append_assoc]

theorem module_phase :
    ∀ (modules : List (String × ModVal)) (st : AuditState),
      ((modules.foldl auditModuleEntry st).score
          = st.score - 5 * (unjustifiedModuleCount modules : ℤ))
      ∧ ((modules.foldl auditModuleEntry st).risk_flags.map RiskFlag.severity
          = st.risk_flags.map RiskFlag.severity
            ++ List.replicate (unjustifiedModuleCount modules) "low") := by
  intro modules st
  exact foldl_pushFlag (fun kv => moduleUnjustified kv.2)
    (fun n kv => moduleFlag kv.1 n) "low" 5 (fun n x => rfl) modules st

theorem flow_phase :
    ∀ (flow : List FlowStep) (st : AuditState),
      ((flow.foldl
          (fun st step => step.adaptations.foldl (auditFlowAdaptation step) st)
          st).score
          = st.score - 8 * (driverlessCount flow : ℤ))
      ∧ ((flow.foldl
          (fun st step => step.adaptations.foldl (auditFlowAdaptation step) st)
          st).risk_flags.map RiskFlag.severity
          = st.risk_flags.map RiskFlag.severity
            ++ List.replicate (driverlessCount flow) "medium") := by
  intro flow
  induction flow with
  | nil => intro st; simp [driverlessCount]
  | cons step rest ih =>
    intro st
    rw [List.foldl_cons]
    obtain ⟨hrs, hrf⟩ :=
      ih (step.adaptations.foldl (auditFlowAdaptation step) st)
    have hinner := foldl_pushFlag (fun a => a.dimension_driver == "")
      (fun n _ => flowFlag step n) "medium" 8 (fun n x => rfl)
      step.adaptations st
    have hbridge : step.adaptations.foldl (auditFlowAdaptation step) st
        = step.adaptations.foldl
            (fun st x =>
              if x.dimension_driver == "" then
                pushFlag st (flowFlag step (st.flag_counter + 1)) 8
              else st) st := rfl
    have hcnt : driverlessCount (step :: rest)
        = (step.adaptations.filter (fun a => a.dimension_driver == "")).length
          + driverlessCount rest := by
      simp [driverlessCount]
    rw [hcnt]
    constructor
    · rw [hrs, hbridge, hinner.1]
      push_cast
      ring
    · rw [hrf, hbridge, hinner.2]
      rw [List.replicate_add, List.append_assoc]

/-- C1 (amended): the Compliance-Audit fallback computes its result as
specified — score starts at 100; each essentializing-pattern match in a
dict-valued copy field's text or rationale emits one flag of severity
"medium" ("high" under strict_mode) and subtracts 10; every module-level
adaptation whose rationale is NON-EMPTY and references no dimension-name
token emits a "low" flag and subtracts 5 (an empty rationale, being falsy,
emits no flag and subtracts nothing — contrary to the original claim);
every flow-step adaptation without a non-empty dimension_driver emits a
"medium" flag and subtracts 8; strict_mode subtracts a flat additional 10
after all other deductions; and the final score is clamped to [0,100]. -/
theorem C1_rule_based_audit_amended (v : AuditVariant) (strict_mode : Bool) :
    (rule_based_audit v strict_mode).audit_score
      = max 0 (min 100 (100 - 10 * (patternMatchCount v.copy : ℤ)
          - 5 * (unjustifiedModuleCount v.modules : ℤ)
          - 8 * (driverlessCount v.flow : ℤ)
          - (if strict_mode then 10 else 0)))
    ∧ (rule_based_audit v strict_mode).risk_flags.map RiskFlag.severity
      = List.replicate (patternMatchCount v.copy)
          (if strict_mode = false then "medium" else "high")
        ++ List.replicate (unjustifiedModuleCount v.modules) "low"
        ++ List.replicate (driverlessCount v.flow) "medium" := by
  obtain ⟨hs1, hf1⟩ := copy_phase strict_mode v.copy
    { risk_flags := [], flag_counter := 0, score := 100 }
  obtain ⟨hs2, hf2⟩ := module_phase v.modules
    (v.copy.foldl (auditCopyEntry strict_mode)
      { risk_flags := [], flag_counter := 0, score := 100 })
  obtain ⟨hs3, hf3⟩ := flow_phase v.flow
    (v.modules.foldl auditModuleEntry
      (v.copy.foldl (auditCopyEntry strict_mode)
        { risk_flags := [], flag_counter := 0, score := 100 }))
  rw [hs2, hs1] at hs3
  rw [hf2, hf1] at hf3
  have h100 : ({ risk_flags := [], flag_counter := 0, score := 100 } : AuditState).score = 100 := rfl
  rw [h100] at hs3
  constructor
  · show max 0 (min 100 _) = _
    rw [hs3]
    cases strict_mode <;> split_ifs <;> omega
  · show (v.flow.foldl
        (fun (st : AuditState) (step : FlowStep) =>
          step.adaptations.foldl (auditFlowAdaptation step) st)
        (v.modules.foldl auditModuleEntry
          (v.copy.foldl (auditCopyEntry strict_mode)
            { risk_flags := [], flag_counter := 0, score := 100 }))).risk_flags.map
        RiskFlag.severity = _
    rw [hf3]
    simp [List.append_assoc]

/-- Concrete variant with a single module whose `adaptation_rationale` is
the empty string (no dimension reference at all). -/
def emptyRationaleVariant : AuditVariant :=
  { copy := []
    modules := [("shipping_info", ModVal.obj "")]
    flow := []
    cultural_profile := default_profile "JP" }

/-- C1 counterexample: a module adaptation carrying an EMPTY rationale is
not flagged and nothing is subtracted — the audit returns score 100 with
zero flags, not the 95-with-one-low-flag the claim requires. -/
theorem C1_empty_rationale_counterexample :
    (rule_based_audit emptyRationaleVariant false).audit_score = 100
    ∧ (rule_based_audit emptyRationaleVariant false).risk_flags = []
    ∧ (100 : ℤ) ≠ 95 := by
  refine ⟨by decide, by decide, by decide⟩

/-- Round a rational to the nearest integer, ties to even; models Python's
`round` applied to the (here exactly represented) numeric value. -/
def roundHalfEven (q : ℚ) : ℤ :=
  if Int.fract q < 1/2 then ⌊q⌋
  else if 1/2 < Int.fract q then ⌊q⌋ + 1
  else if ⌊q⌋ % 2 = 0 then ⌊q⌋ else ⌊q⌋ + 1

/-- `round(q, ndigits)` in Python. -/
def pyRound (ndigits : ℕ) (q : ℚ) : ℚ :=
  (roundHalfEven (q * 10 ^ ndigits) : ℚ) / 10 ^ ndigits

/-- `RULE_LIFT_FACTORS` from `agents/experimentation.py`. -/
def RULE_LIFT_FACTORS : List (String × ℚ) :=
  [("increase_trust_modules", 5/100), ("increase_process_clarity", 3/100),
   ("increase_explicit_info", 4/100), ("increase_social_proof", 6/100),
   ("reduce_checkout_steps", 8/100), ("enhance_guarantees", 4/100),
   ("value_framing", 5/100), ("add_authority_signals", 3/100),
   ("ambient_information", 2/100), ("individual_framing", 3/100)]

/-- `BASELINE_RATES` from `agents/experimentation.py`: baseline conversion
rates by product category. -/
def BASELINE_RATES : List (String × ℚ) :=
  [("electronics", 21/10), ("fashion", 28/10), ("food_beverage", 35/10),
   ("home_garden", 18/10), ("health_beauty", 3)]

/-- One entry of `applied_factors`; `lift` holds the rendered percentage
string (Python `f"+{factor*100:.1f}%"`). -/
structure AppliedFactor where
  rule : String
  lift : String
deriving DecidableEq

/-- Renders `f"+{factor*100:.1f}%"` for the non-negative one-decimal
factors in the table. -/
def fmtLiftPct (factor : ℚ) : String :=
  "+" ++ toString ⌊factor * 100⌋ ++ "." ++ toString (⌊factor * 1000⌋ % 10) ++ "%"

/-- `modules.get(name, {})` — absent module dicts behave as an empty dict,
whose field reads fall back to the `ModuleCfg` defaults
(`None` / `False`). -/
def moduleGet (modules : List (String × ModuleCfg)) (name : String) :
    ModuleCfg :=
  (dictLookup name modules).getD {}

/-- The heuristic's input view of a variant: `_calculate_heuristic_lift`
reads only `modules` and `flow` (it also binds `cultural_profile` to a
local that is never used afterwards). -/
structure HVariant where
  modules : List (String × ModuleCfg)
  flow : List FlowStep
deriving DecidableEq

/-- The signal section of `_calculate_heuristic_lift`, as a function of
the six boolean signal conditions (in source order): reviews above the
fold, guarantees prominent, shipping info above the fold, installments
shown, social-proof module enabled (skipped when a "Social proof" rule was
already applied), and an `express_checkout` flow step.  Each branch
multiplies the compound factor by `1 + factor` (factor from
`RULE_LIFT_FACTORS` with the source's inline default) and appends an
applied-factor entry; `liftStep` is one such `if` block. -/
def liftStep (cond : Bool) (rule : String) (factor : ℚ)
    (st : ℚ × List AppliedFactor) : ℚ × List AppliedFactor :=
  if cond then (st.1 * (1 + factor), st.2 ++ [⟨rule, fmtLiftPct factor⟩])
  else st

/-- The six signal blocks of `_calculate_heuristic_lift`, chained in
source order (the fifth condition folds the source's nested
"already applied a Social proof rule" dedup check into the step's
condition). -/
def liftCore (c1 c2 c3 c4 c5 c6 : Bool) : ℚ × List AppliedFactor :=
  let st0 : ℚ × List AppliedFactor := (1, [])
  let st1 := liftStep c1 "Social proof emphasis"
    ((dictLookup "increase_social_proof" RULE_LIFT_FACTORS).getD (4/100)) st0
  let st2 := liftStep c2 "Enhanced guarantees"
    ((dictLookup "enhance_guarantees" RULE_LIFT_FACTORS).getD (4/100)) st1
  let st3 := liftStep c3 "Trust modules above fold"
    ((dictLookup "increase_trust_modules" RULE_LIFT_FACTORS).getD (3/100)) st2
  let st4 := liftStep c4 "Value/installment framing"
    ((dictLookup "value_framing" RULE_LIFT_FACTORS).getD (5/100)) st3
  let st5 := liftStep
    (c5 && !(st4.2.any (fun f => strContains f.rule "Social proof")))
    "Social proof module"
    ((dictLookup "increase_social_proof" RULE_LIFT_FACTORS).getD (4/100)) st4
  let st6 := liftStep c6 "Checkout step reduction"
    ((dictLookup "reduce_checkout_steps" RULE_LIFT_FACTORS).getD (8/100)) st5
  st6

/-- The A/B test plan constant. -/
structure ABTestPlan where
  recommended_sample_size : ℕ
  recommended_duration_days : ℕ
  success_metric : String
  segments : List String
  statistical_significance_target : ℚ
deriving DecidableEq

/-- The heuristic prediction result dict. -/
structure PredictionResult where
  metric : String
  baseline : ℚ
  predicted : ℚ
  lift_percentage : ℚ
  confidence_level : String
  method : String
  assumptions : List String
  applied_factors : List AppliedFactor
  ab_test_plan : ABTestPlan
  rationale : String
deriving DecidableEq

/-- Rendering of a rational inside prose strings; exact for integer
values (Python's `str()`), fractional values are abstracted as
`num/den`. -/
def qToStr (q : ℚ) : String :=
  if q.den = 1 then toString q.num
  else toString q.num ++ "/" ++ toString q.den

/-- `ExperimentationAgent._calculate_heuristic_lift`.  The baseline is the
local constant 2.3 (the "# default"; the product category is never
extracted and `BASELINE_RATES` is not consulted).  The audit score is
`audit_result.get("audit_score", 80)` (modelled as an optional score).
The compound factor is discounted by the audit score and the predicted
rate and lift percentage are rounded to 2 and 1 decimals respectively. -/
def calculate_heuristic_lift (variant : HVariant) (audit_score? : Option ℚ) :
    PredictionResult :=
  let baseline : ℚ := 23/10
  let c1 := (moduleGet variant.modules "reviews").placement == some "above_fold"
  let c2 := (moduleGet variant.modules "guarantees").prominence == some "high"
  let c3 := (moduleGet variant.modules "shipping_info").placement == some "above_fold"
  let c4 := (moduleGet variant.modules "payment_options").show_installments
  let c5 := (moduleGet variant.modules "social_proof").enabled
  let c6 := variant.flow.any (fun s => s.step_id == "express_checkout")
  let core := liftCore c1 c2 c3 c4 c5 c6
  let compound_factor := core.1
  let applied_factors := core.2
  let audit_score := audit_score?.getD 80
  let audit_multiplier := audit_score / 100
  let compound_factor := 1 + (compound_factor - 1) * audit_multiplier
  let predicted := pyRound 2 (baseline * compound_factor)
  let lift_pct := pyRound 1 ((predicted - baseline) / baseline * 100)
  let num_factors := applied_factors.length
  let confidence :=
    if num_factors ≥ 4 ∧ audit_score ≥ 80 then "high"
    else if num_factors ≥ 2 ∧ audit_score ≥ 60 then "medium"
    else "low"
  { metric := "conversion_rate"
    baseline := baseline
    predicted := predicted
    lift_percentage := lift_pct
    confidence_level := confidence
    method := "Transparent heuristic model: each applicable cultural adaptation rule contributes an estimated lift factor (2-8% relative improvement). Factors compound multiplicatively and are discounted by audit compliance score. Baseline uses industry-average conversion rates."
    assumptions :=
      ["Baseline conversion rate assumed at 2.3% (industry average for e-commerce)",
       toString num_factors ++ " cultural adaptation factors applied with estimated impact ranges",
       "Lift factors are based on published e-commerce conversion optimization research patterns",
       "Factors assume proper implementation of all adaptations",
       "Audit score (" ++ qToStr audit_score ++ "/100) applied as confidence multiplier",
       "No actual A/B test data validates these predictions — they are simulated estimates",
       "Real lift depends on product, market entry strategy, competition, and execution quality"]
    applied_factors := applied_factors
    ab_test_plan :=
      { recommended_sample_size := 5000
        recommended_duration_days := 14
        success_metric := "conversion_rate"
        segments := ["new_visitors", "returning_visitors"]
        statistical_significance_target := 95/100 }
    rationale := "Predicted " ++ qToStr lift_pct ++ "% conversion lift based on "
      ++ toString num_factors ++ " applicable cultural adaptation factors. Audit compliance score of "
      ++ qToStr audit_score ++ "/100 applied as confidence multiplier. Confidence level: "
      ++ confidence ++ ". This is a simulated prediction for demonstration purposes — real impact should be validated through controlled A/B testing." }

/-- Running invariant of the signal chain: the compound factor is at least
1, it is exactly 1 while no factor has been applied, and at least 1.03 once
any factor has been applied (every table factor used is ≥ 0.03). -/
def LiftInv (st : ℚ × List AppliedFactor) : Prop :=
  1 ≤ st.1 ∧ (st.2 = [] → st.1 = 1) ∧ (st.2 ≠ [] → 103/100 ≤ st.1)

theorem liftStep_inv (cond : Bool) (rule : String) (factor : ℚ)
    (hf : 3/100 ≤ factor) (st : ℚ × List AppliedFactor) (h : LiftInv st) :
    LiftInv (liftStep cond rule factor st) := by
  obtain ⟨h1, h2, h3⟩ := h
  unfold liftStep LiftInv
  cases cond with
  | false => exact ⟨h1, h2, h3⟩
  | true =>
    rw [if_pos rfl]
    refine ⟨?_, ?_, ?_⟩
    · show (1:ℚ) ≤ st.1 * (1 + factor)
      nlinarith
    · intro hc
      exact absurd hc (by simp)
    · intro _
      show (103/100:ℚ) ≤ st.1 * (1 + factor)
      nlinarith

theorem liftCore_inv (c1 c2 c3 c4 c5 c6 : Bool) :
    LiftInv (liftCore c1 c2 c3 c4 c5 c6) := by
  have e1 : (dictLookup "increase_social_proof" RULE_LIFT_FACTORS).getD (4/100) = 6/100 := rfl
  have e2 : (dictLookup "enhance_guarantees" RULE_LIFT_FACTORS).getD (4/100) = 4/100 := rfl
  have e3 : (dictLookup "increase_trust_modules" RULE_LIFT_FACTORS).getD (3/100) = 5/100 := rfl
  have e4 : (dictLookup "value_framing" RULE_LIFT_FACTORS).getD (5/100) = 5/100 := rfl
  have e6 : (dictLookup "reduce_checkout_steps" RULE_LIFT_FACTORS).getD (8/100) = 8/100 := rfl
  unfold liftCore
  rw [e1, e2, e3, e4, e6]
  apply liftStep_inv _ _ _ (by norm_num)
  apply liftStep_inv _ _ _ (by norm_num)
  apply liftStep_inv _ _ _ (by norm_num)
  apply liftStep_inv _ _ _ (by norm_num)
  apply liftStep_inv _ _ _ (by norm_num)
  apply liftStep_inv _ _ _ (by norm_num)
  exact ⟨le_refl 1, fun _ => rfl, fun hc => absurd rfl hc⟩

theorem roundHalfEven_ge (q : ℚ) : q - 1/2 ≤ (roundHalfEven q : ℚ) := by
  have h0 : (0:ℚ) ≤ Int.fract q := Int.fract_nonneg q
  have h1 : Int.fract q < 1 := Int.fract_lt_one q
  have h2 : Int.fract q = q - ⌊q⌋ := (Int.self_sub_floor q).symm
  unfold roundHalfEven
  split_ifs with ha hb hc
  · linarith
  · push_cast
    linarith
  · have heq : Int.fract q = 1/2 := le_antisymm (not_lt.mp hb) (not_lt.mp ha)
    linarith
  · have heq : Int.fract q = 1/2 := le_antisymm (not_lt.mp hb) (not_lt.mp ha)
    push_cast
    linarith

theorem roundHalfEven_le (q : ℚ) : (roundHalfEven q : ℚ) ≤ q + 1/2 := by
  have h0 : (0:ℚ) ≤ Int.fract q := Int.fract_nonneg q
  have h1 : Int.fract q < 1 := Int.fract_lt_one q
  have h2 : Int.fract q = q - ⌊q⌋ := (Int.self_sub_floor q).symm
  unfold roundHalfEven
  split_ifs with ha hb hc
  · linarith
  · push_cast
    linarith
  · have heq : Int.fract q = 1/2 := le_antisymm (not_lt.mp hb) (not_lt.mp ha)
    linarith
  · have heq : Int.fract q = 1/2 := le_antisymm (not_lt.mp hb) (not_lt.mp ha)
    push_cast
    linarith

theorem pyRound_ge (n : ℕ) (q : ℚ) : q - 1/(2 * 10 ^ n) ≤ pyRound n q := by
  unfold pyRound
  have h := roundHalfEven_ge (q * 10 ^ n)
  have hpos : (0:ℚ) < 10 ^ n := by positivity
  rw [le_div_iff₀ hpos]
  have hexp : (q - 1/(2 * 10 ^ n)) * 10 ^ n = q * 10 ^ n - 1/2 := by
    field_simp
    ring
  rw [hexp]
  exact h

/-- Evaluation rule for `pyRound` when the scaled value sits strictly below
the rounding tie. -/
theorem pyRound_eq (n : ℕ) (q : ℚ) (z : ℤ)
    (hlo : (z : ℚ) ≤ q * 10 ^ n) (hhi : q * 10 ^ n < (z : ℚ) + 1/2) :
    pyRound n q = (z : ℚ) / 10 ^ n := by
  have hfl : ⌊q * 10 ^ n⌋ = z := by
    rw [Int.floor_eq_iff]
    exact ⟨hlo, by linarith⟩
  have hfr : Int.fract (q * 10 ^ n) < 1/2 := by
    rw [Int.fract, hfl]
    linarith
  unfold pyRound roundHalfEven
  rw [if_pos hfr, hfl]

theorem lift_formula_zero (a : ℚ) :
    pyRound 1 ((pyRound 2 ((23/10 : ℚ) * (1 + ((1:ℚ) - 1) * (a / 100)))
      - 23/10) / (23/10) * 100) = 0 := by
  have harg : ((23/10 : ℚ) * (1 + ((1:ℚ) - 1) * (a / 100))) = 23/10 := by ring
  rw [harg]
  have h2 : pyRound 2 ((23:ℚ)/10) = ((230:ℤ) : ℚ) / 10 ^ 2 :=
    pyRound_eq 2 _ 230 (by norm_num) (by norm_num)
  rw [h2]
  have h3 : (((230:ℤ) : ℚ) / 10 ^ 2 - 23/10) / (23/10) * 100 = 0 := by norm_num
  rw [h3]
  have h4 : pyRound 1 (0:ℚ) = ((0:ℤ) : ℚ) / 10 ^ 1 :=
    pyRound_eq 1 _ 0 (by norm_num) (by norm_num)
  rw [h4]
  norm_num

theorem lift_formula_pos (compound a : ℚ)
    (hc : 103/100 ≤ compound) (ha : 10 ≤ a) :
    0 < pyRound 1 ((pyRound 2 ((23/10 : ℚ) * (1 + (compound - 1) * (a / 100)))
      - 23/10) / (23/10) * 100) := by
  have hdelta : (69/10000 : ℚ) ≤ 23/10 * ((compound - 1) * (a / 100)) := by
    nlinarith
  have hexpand : (23/10 : ℚ) * (1 + (compound - 1) * (a / 100))
      = 23/10 + 23/10 * ((compound - 1) * (a / 100)) := by ring
  set x := pyRound 2 ((23/10 : ℚ) * (1 + (compound - 1) * (a / 100))) with hxdef
  have hx := pyRound_ge 2 ((23/10 : ℚ) * (1 + (compound - 1) * (a / 100)))
  rw [← hxdef] at hx
  have h200 : (1:ℚ)/(2 * 10 ^ 2) = 1/200 := by norm_num
  rw [h200] at hx
  have hx2 : (23/10 : ℚ) + 19/10000 ≤ x := by linarith
  have hy := pyRound_ge 1 ((x - 23/10) / (23/10) * 100)
  have h20 : (1:ℚ)/(2 * 10 ^ 1) = 1/20 := by norm_num
  rw [h20] at hy
  have hy2 : (19/230 : ℚ) ≤ (x - 23/10) / (23/10) * 100 := by
    have hrw : (x - 23/10) / (23/10) * 100 = (x - 23/10) * (1000/23) := by
      ring
    rw [hrw]
    nlinarith
  have hfinal : (0:ℚ) < 19/230 - 1/20 := by norm_num
  linarith

theorem heuristic_zero_pos (c1 c2 c3 c4 c5 c6 : Bool) (a : ℚ) :
    ((liftCore c1 c2 c3 c4 c5 c6).2 = [] →
      pyRound 1 ((pyRound 2 ((23/10:ℚ)
          * (1 + ((liftCore c1 c2 c3 c4 c5 c6).1 - 1) * (a / 100)))
        - 23/10) / (23/10) * 100) = 0)
    ∧ ((liftCore c1 c2 c3 c4 c5 c6).2 ≠ [] → 10 ≤ a →
      0 < pyRound 1 ((pyRound 2 ((23/10:ℚ)
          * (1 + ((liftCore c1 c2 c3 c4 c5 c6).1 - 1) * (a / 100)))
        - 23/10) / (23/10) * 100)) := by
  obtain ⟨hge1, hempty, hfull⟩ := liftCore_inv c1 c2 c3 c4 c5 c6
  constructor
  · intro h0
    rw [hempty h0]
    exact lift_formula_zero a
  · intro h0 h10
    exact lift_formula_pos _ a (hfull h0) h10

/-- C5 (amended): the Impact-Prediction fallback computes
`final_factor = 1 + (compound_factor - 1) * (audit_score/100)`,
`predicted = round(baseline * final_factor, 2)` and
`lift_percentage = round((predicted - baseline)/baseline * 100, 1)` — the
source rounds both intermediate outputs, which the original claim omits;
consequently `lift_percentage` is 0 when zero signals fire, and strictly
positive whenever at least one signal fires and `audit_score ≥ 10` (a
small positive audit score can round the lift down to exactly 0, so
`audit_score > 0` alone does not suffice). -/
theorem C5_heuristic_lift_amended (v : HVariant) (a? : Option ℚ) :
    ((calculate_heuristic_lift v a?).applied_factors = [] →
        (calculate_heuristic_lift v a?).lift_percentage = 0)
    ∧ ((calculate_heuristic_lift v a?).applied_factors ≠ [] →
        10 ≤ a?.getD 80 →
        0 < (calculate_heuristic_lift v a?).lift_percentage)
    ∧ (calculate_heuristic_lift v a?).lift_percentage
        = pyRound 1 (((calculate_heuristic_lift v a?).predicted
              - (calculate_heuristic_lift v a?).baseline)
            / (calculate_heuristic_lift v a?).baseline * 100)
    ∧ (calculate_heuristic_lift v a?).predicted
        = pyRound 2 ((calculate_heuristic_lift v a?).baseline
            * (1 + ((liftCore
                ((moduleGet v.modules "reviews").placement == some "above_fold")
                ((moduleGet v.modules "guarantees").prominence == some "high")
                ((moduleGet v.modules "shipping_info").placement == some "above_fold")
                (moduleGet v.modules "payment_options").show_installments
                (moduleGet v.modules "social_proof").enabled
                (v.flow.any (fun s => s.step_id == "express_checkout"))).1 - 1)
              * (a?.getD 80 / 100))) := by
  have h := heuristic_zero_pos
    ((moduleGet v.modules "reviews").placement == some "above_fold")
    ((moduleGet v.modules "guarantees").prominence == some "high")
    ((moduleGet v.modules "shipping_info").placement == some "above_fold")
    (moduleGet v.modules "payment_options").show_installments
    (moduleGet v.modules "social_proof").enabled
    (v.flow.any (fun s => s.step_id == "express_checkout"))
    (a?.getD 80)
  exact ⟨fun h0 => h.1 h0, fun h0 h10 => h.2 h0 h10, rfl, rfl⟩

/-- Variant with exactly one firing signal: shipping info above the fold
(lift factor 0.05 from the table). -/
def oneSignalVariant : HVariant :=
  { modules := [("shipping_info", { enabled := true, placement := some "above_fold" })]
    flow := [] }

theorem C5_heuristic_lift_amended_witness :
    (calculate_heuristic_lift oneSignalVariant (some 80)).applied_factors ≠ []
    ∧ (10 : ℚ) ≤ (some (80:ℚ)).getD 80
    ∧ 0 < (calculate_heuristic_lift oneSignalVariant (some 80)).lift_percentage := by
  have h1 : (calculate_heuristic_lift oneSignalVariant (some 80)).applied_factors ≠ [] := by
    decide
  have h2 : (10 : ℚ) ≤ (some (80:ℚ)).getD 80 := by decide
  exact ⟨h1, h2,
    (C5_heuristic_lift_amended oneSignalVariant (some 80)).2.1 h1 h2⟩

/-- C5 counterexample: with one firing signal (factor 0.05) and
audit_score = 1 (> 0), the rounding to 2 decimals collapses
`predicted` back to the baseline 2.3 and the lift percentage is exactly 0,
refuting "strictly positive whenever at least one signal fires and
audit_score > 0". -/
theorem C5_low_audit_counterexample :
    (calculate_heuristic_lift oneSignalVariant (some 1)).applied_factors.length = 1
    ∧ (0:ℚ) < 1
    ∧ (calculate_heuristic_lift oneSignalVariant (some 1)).lift_percentage = 0 := by
  refine ⟨by decide, by norm_num, ?_⟩
  have hext : (calculate_heuristic_lift oneSignalVariant (some 1)).lift_percentage
      = pyRound 1 ((pyRound 2 ((23/10 : ℚ)
          * (1 + ((liftCore false false true false false false).1 - 1) * ((1:ℚ) / 100)))
        - 23/10) / (23/10) * 100) := rfl
  have hcomp : (liftCore false false true false false false).1
      = 1 * (1 + 5/100) := rfl
  rw [hext, hcomp]
  have harg : ((23/10 : ℚ) * (1 + ((1:ℚ) * (1 + 5/100) - 1) * ((1:ℚ) / 100)))
      = 46023/20000 := by norm_num
  rw [harg]
  have hp2 : pyRound 2 (46023/20000 : ℚ) = ((230:ℤ) : ℚ) / 10 ^ 2 :=
    pyRound_eq 2 _ 230 (by norm_num) (by norm_num)
  rw [hp2]
  have h3 : ((((230:ℤ) : ℚ) / 10 ^ 2) - 23/10) / (23/10) * 100 = 0 := by norm_num
  rw [h3]
  have h4 : pyRound 1 (0:ℚ) = ((0:ℤ) : ℚ) / 10 ^ 1 :=
    pyRound_eq 1 _ 0 (by norm_num) (by norm_num)
  rw [h4]
  norm_num

/-- C9 (amended): the Impact-Prediction fallback's baseline conversion
rate is the fixed local default 2.3 for every variant and audit result;
the per-category `BASELINE_RATES` table exists but is never consulted by
`_calculate_heuristic_lift` (the variant passed to it does not even carry
the product category). -/
theorem C9_baseline_constant (v : HVariant) (a? : Option ℚ) :
    (calculate_heuristic_lift v a?).baseline = 23/10 := rfl

/-- C9 counterexample: the fallback's baseline is 2.3 for every variant,
which differs from the fixed per-category table rates (electronics 2.1,
fashion 2.8); so the baseline used in the prediction does not depend on
the product category and does not equal the table's rates. -/
theorem C9_baseline_counterexample :
    dictLookup "electronics" BASELINE_RATES = some (21/10)
    ∧ dictLookup "fashion" BASELINE_RATES = some (28/10)
    ∧ (calculate_heuristic_lift oneSignalVariant (some 80)).baseline = 23/10
    ∧ (calculate_heuristic_lift { modules := [], flow := [] } (some 80)).baseline = 23/10
    ∧ (23/10 : ℚ) ≠ 21/10 ∧ (23/10 : ℚ) ≠ 28/10 := by
  refine ⟨rfl, rfl, rfl, rfl, by norm_num, by norm_num⟩

/-- The combined "Express Checkout" step built by
`UXAdaptationAgent._rule_based_adaptation` when friction tolerance is low;
its adaptation cites the measured friction value as `dimension_driver`. -/
def combinedExpressStep (dimensions : List (String × ℚ)) : FlowStep :=
  { step_id := "express_checkout"
    name := "Express Checkout"
    description := "Combined shipping and payment in a single streamlined step"
    adaptations :=
      [{ change := "Combined shipping and payment steps"
         dimension_driver := "friction_tolerance="
           ++ qToStr ((dictLookup "friction_tolerance" dimensions).getD 50)
         rationale := "Low friction tolerance requires streamlined flow to prevent cart abandonment" }]
    required_fields := ["full_name", "address", "payment_method"]
    validations := ["address_format"] }

/-- The UX adaptation output dict:
`{theme_emphasis, rationale, flow, modules}`. -/
structure UXOutput where
  theme_emphasis : String
  rationale : String
  flow : List FlowStep
  modules : List (String × ModuleCfg)
deriving DecidableEq

/-- `UXAdaptationAgent._rule_based_adaptation`: when
`friction_tolerance ≤ 40`, rebuild the flow replacing each `shipping` step
by the combined express-checkout step and dropping each `payment` step
(other steps are copied with empty adaptations); build the six module
configurations from the dimension thresholds; collect the triggered theme
labels in order (or "balanced").  `price_band` is accepted but not read,
as in the source. -/
def rule_based_adaptation (dimensions : List (String × ℚ)) (rules : List Rule)
    (base_spec : BaseSpec) (price_band : String) : UXOutput :=
  let base_flow := base_spec.baseline_flow
  let low_friction := (dictLookup "friction_tolerance" dimensions).getD 50 ≤ 40
  let flow :=
    if low_friction then
      base_flow.foldl (fun acc step =>
        if step.step_id = "shipping" then acc ++ [combinedExpressStep dimensions]
        else if step.step_id ≠ "payment" then acc ++ [{ step with adaptations := [] }]
        else acc) []
    else base_flow.map (fun step => { step with adaptations := [] })
  let collectivism := (dictLookup "collectivism" dimensions).getD 50
  let trust_need := (dictLookup "trust_need" dimensions).getD 50
  let ua := (dictLookup "uncertainty_avoidance" dimensions).getD 50
  let context_level := (dictLookup "context_level" dimensions).getD 50
  let price_sensitivity := (dictLookup "price_sensitivity" dimensions).getD 50
  let friction := (dictLookup "friction_tolerance" dimensions).getD 50
  let modules : List (String × ModuleCfg) :=
    [("reviews",
      { enabled := true
        placement := some (if collectivism ≥ 65 then "above_fold" else "below_fold")
        style := some (if collectivism ≥ 65 then "community" else "stars")
        adaptation_rationale := "Collectivism=" ++ qToStr collectivism ++ ": "
          ++ (if collectivism ≥ 65 then "Strong social proof emphasis"
              else "Standard review display") }),
     ("guarantees",
      { enabled := true
        types :=
          if trust_need ≥ 75 then
            ["money-back guarantee", "authenticity guarantee",
             "secure payment", "official warranty"]
          else ["30-day returns", "manufacturer warranty"]
        prominence := some (if trust_need ≥ 75 then "high" else "medium")
        adaptation_rationale := "Trust need=" ++ qToStr trust_need ++ ": "
          ++ (if trust_need ≥ 75 then "Enhanced guarantee prominence"
              else "Standard guarantees") }),
     ("shipping_info",
      { enabled := true
        placement := some (if ua ≥ 70 then "above_fold" else "product_detail")
        detail_level := some (if context_level ≤ 35 then "detailed" else "standard")
        adaptation_rationale := "UA=" ++ qToStr ua ++ ", CL=" ++ qToStr context_level
          ++ ": " ++ (if ua ≥ 70 then "Detailed upfront shipping info"
              else "Standard shipping display") }),
     ("returns",
      { enabled := true
        prominence := some (if ua ≥ 70 then "high" else "medium")
        adaptation_rationale := "UA=" ++ qToStr ua ++ ": "
          ++ (if ua ≥ 70 then "High prominence returns policy"
              else "Standard returns") }),
     ("payment_options",
      { enabled := true
        show_installments := decide (price_sensitivity ≥ 70)
        show_local_methods := true
        emphasized_methods :=
          if price_sensitivity ≥ 70 then ["installments", "BNPL", "mobile_payment"]
          else ["credit_card", "debit_card"]
        adaptation_rationale := "Price sensitivity=" ++ qToStr price_sensitivity
          ++ ": " ++ (if price_sensitivity ≥ 70 then "Installment and flexible payment emphasis"
              else "Standard payment options") }),
     ("social_proof",
      { enabled := decide (collectivism ≥ 65)
        stype := some (if collectivism ≥ 65 then "community" else "individual")
        placement := some (if collectivism ≥ 65 then "above_fold" else "sidebar")
        adaptation_rationale := "Collectivism=" ++ qToStr collectivism ++ ": "
          ++ (if collectivism ≥ 65 then "Community-driven social proof"
              else "Individual testimonials") })]
  let themes :=
    (if trust_need ≥ 75 then ["trust-first"] else [])
    ++ (if friction ≤ 40 then ["efficiency-driven"] else [])
    ++ (if collectivism ≥ 65 then ["community-validated"] else [])
    ++ (if context_level ≤ 35 then ["information-rich"] else [])
    ++ (if price_sensitivity ≥ 70 then ["value-oriented"] else [])
  let theme := if themes = [] then "balanced" else String.intercalate ", " themes
  { theme_emphasis := theme
    rationale := "Adaptation driven by " ++ toString rules.length
      ++ " applicable mapping rules for " ++ toString themes.length
      ++ " identified behavioral patterns. Generated using rule-based fallback."
    flow := flow
    modules := modules }

/-- `UXAdaptationAgent._default_base_spec`. -/
def default_base_spec : BaseSpec :=
  { product_category := "general"
    baseline_flow :=
      [{ step_id := "browse", name := "Browse", description := "Product browsing" },
       { step_id := "detail", name := "Product Detail", description := "Product detail page" },
       { step_id := "cart", name := "Cart", description := "Shopping cart" },
       { step_id := "checkout", name := "Checkout", description := "Checkout process" },
       { step_id := "confirm", name := "Confirmation", description := "Order confirmation" }]
    baseline_modules := [] }

/-- Per-step action of the low-friction flow rebuild, as an optional
output (the loop keeps declaration order). -/
def uxFlowMap (dimensions : List (String × ℚ)) (step : FlowStep) :
    Option FlowStep :=
  if step.step_id = "shipping" then some (combinedExpressStep dimensions)
  else if step.step_id ≠ "payment" then some { step with adaptations := [] }
  else none

theorem ux_flow_foldl (dimensions : List (String × ℚ)) (l : List FlowStep) :
    ∀ acc : List FlowStep,
      l.foldl (fun acc step =>
        if step.step_id = "shipping" then acc ++ [combinedExpressStep dimensions]
        else if step.step_id ≠ "payment" then acc ++ [{ step with adaptations := [] }]
        else acc) acc
      = acc ++ l.filterMap (uxFlowMap dimensions) := by
  induction l with
  | nil => intro acc; simp
  | cons step rest ih =>
    intro acc
    rw [List.foldl_cons, List.filterMap_cons]
    by_cases h1 : step.step_id = "shipping"
    · rw [if_pos h1]
      rw [show uxFlowMap dimensions step = some (combinedExpressStep dimensions) by
        unfold uxFlowMap; rw [if_pos h1]]
      rw [ih]
      simp
    · rw [if_neg h1]
      by_cases h2 : step.step_id ≠ "payment"
      · rw [if_pos h2]
        rw [show uxFlowMap dimensions step = some { step with adaptations := [] } by
          unfold uxFlowMap; rw [if_neg h1, if_pos h2]]
        rw [ih]
        simp
      · rw [if_neg h2]
        rw [show uxFlowMap dimensions step = none by
          unfold uxFlowMap; rw [if_neg h1, if_neg h2]]
        exact ih acc

theorem uxFlow_no_ship_pay (dimensions : List (String × ℚ))
    (l : List FlowStep) :
    ∀ s ∈ l.filterMap (uxFlowMap dimensions),
      s.step_id ≠ "shipping" ∧ s.step_id ≠ "payment" := by
  intro s hs
  obtain ⟨t, ht, hmap⟩ := List.mem_filterMap.mp hs
  unfold uxFlowMap at hmap
  split_ifs at hmap with h1 h2
  · injection hmap with h
    rw [← h]
    exact ⟨by simp [combinedExpressStep], by simp [combinedExpressStep]⟩
  · injection hmap with h
    rw [← h]
    exact ⟨h1, h2⟩

theorem uxFlow_express_count (dimensions : List (String × ℚ)) :
    ∀ l : List FlowStep, (∀ s ∈ l, s.step_id ≠ "express_checkout") →
      ((l.filterMap (uxFlowMap dimensions)).filter
          (fun s => s.step_id == "express_checkout")).length
        = (l.filter (fun s => s.step_id == "shipping")).length := by
  intro l
  induction l with
  | nil => intro _; rfl
  | cons t rest ih =>
    intro hno
    have hno' : ∀ s ∈ rest, s.step_id ≠ "express_checkout" :=
      fun s hs => hno s (List.mem_cons_of_mem _ hs)
    have hnt : t.step_id ≠ "express_checkout" := hno t (List.mem_cons_self _ _)
    rw [List.filterMap_cons]
    by_cases h1 : t.step_id = "shipping"
    · rw [show uxFlowMap dimensions t = some (combinedExpressStep dimensions) by
        unfold uxFlowMap; rw [if_pos h1]]
      rw [List.filter_cons_of_pos (by simp [combinedExpressStep]),
        List.filter_cons_of_pos (by simp [h1]),
        List.length_cons, List.length_cons, ih hno']
    · by_cases h2 : t.step_id ≠ "payment"
      · rw [show uxFlowMap dimensions t = some { t with adaptations := [] } by
          unfold uxFlowMap; rw [if_neg h1, if_pos h2]]
        rw [List.filter_cons_of_neg (by simp [hnt]),
          List.filter_cons_of_neg (by simp [h1]), ih hno']
      · rw [show uxFlowMap dimensions t = none by
          unfold uxFlowMap; rw [if_neg h1, if_neg h2]]
        rw [List.filter_cons_of_neg (by simp [h1]), ih hno']

theorem uxFlow_express_mem (dimensions : List (String × ℚ))
    (l : List FlowStep) (s : FlowStep) (hs : s ∈ l)
    (hid : s.step_id = "shipping") :
    combinedExpressStep dimensions ∈ l.filterMap (uxFlowMap dimensions) :=
  List.mem_filterMap.mpr ⟨s, hs, by unfold uxFlowMap; rw [if_pos hid]⟩

theorem liftStep_mem_self (rule : String) (factor : ℚ)
    (st : ℚ × List AppliedFactor) :
    (⟨rule, fmtLiftPct factor⟩ : AppliedFactor) ∈ (liftStep true rule factor st).2 := by
  unfold liftStep
  rw [if_pos rfl]
  show (⟨rule, fmtLiftPct factor⟩ : AppliedFactor) ∈ st.2 ++ [⟨rule, fmtLiftPct factor⟩]
  exact List.mem_append_right _ (List.mem_singleton_self _)

theorem liftCore_checkout_mem (c1 c2 c3 c4 c5 : Bool) :
    (⟨"Checkout step reduction",
        fmtLiftPct ((dictLookup "reduce_checkout_steps" RULE_LIFT_FACTORS).getD (8/100))⟩
      : AppliedFactor) ∈ (liftCore c1 c2 c3 c4 c5 true).2 :=
  liftStep_mem_self _ _ _

theorem fmtLiftPct_checkout : fmtLiftPct (8/100) = "+8.0%" := by
  unfold fmtLiftPct
  have e1 : ⌊(8/100 : ℚ) * 100⌋ = 8 := by norm_num [Int.floor_eq_iff]
  have e2 : ⌊(8/100 : ℚ) * 1000⌋ = 80 := by norm_num [Int.floor_eq_iff]
  rw [e1, e2]
  rfl

theorem heuristic_fires_checkout (v : HVariant) (a? : Option ℚ)
    (hc6 : v.flow.any (fun s => s.step_id == "express_checkout") = true) :
    (⟨"Checkout step reduction", "+8.0%"⟩ : AppliedFactor)
      ∈ (calculate_heuristic_lift v a?).applied_factors := by
  show (⟨"Checkout step reduction", "+8.0%"⟩ : AppliedFactor)
    ∈ (liftCore
        ((moduleGet v.modules "reviews").placement == some "above_fold")
        ((moduleGet v.modules "guarantees").prominence == some "high")
        ((moduleGet v.modules "shipping_info").placement == some "above_fold")
        (moduleGet v.modules "payment_options").show_installments
        (moduleGet v.modules "social_proof").enabled
        (v.flow.any (fun s => s.step_id == "express_checkout"))).2
  rw [hc6, ← fmtLiftPct_checkout,
    show (8/100 : ℚ) = (dictLookup "reduce_checkout_steps" RULE_LIFT_FACTORS).getD (8/100)
      from rfl]
  exact liftCore_checkout_mem _ _ _ _ _

/-- C8: for a profile with friction_tolerance = 35 (≤ 40) and a baseline
flow with exactly one `shipping` step (and no pre-existing
`express_checkout` step), the UX fallback merges the shipping and payment
baseline steps into exactly one combined express-checkout flow step whose
adaptation cites "friction_tolerance=35" as `dimension_driver` (no
shipping or payment step remains), and the Impact-Prediction fallback then
fires the checkout-reduction signal with the +8% lift factor on a variant
carrying that flow. -/
theorem C8_low_friction_merge (dims : List (String × ℚ)) (rules : List Rule)
    (base_spec : BaseSpec) (price_band : String) (audit : Option ℚ)
    (hfric : dictLookup "friction_tolerance" dims = some 35)
    (hship : (base_spec.baseline_flow.filter
        (fun s => s.step_id == "shipping")).length = 1)
    (hnoexp : ∀ s ∈ base_spec.baseline_flow, s.step_id ≠ "express_checkout") :
    (((rule_based_adaptation dims rules base_spec price_band).flow.filter
        (fun s => s.step_id == "express_checkout")).length = 1)
    ∧ combinedExpressStep dims
        ∈ (rule_based_adaptation dims rules base_spec price_band).flow
    ∧ (∀ s ∈ (rule_based_adaptation dims rules base_spec price_band).flow,
        s.step_id ≠ "shipping" ∧ s.step_id ≠ "payment")
    ∧ (combinedExpressStep dims).adaptations
        = [{ change := "Combined shipping and payment steps"
             dimension_driver := "friction_tolerance=35"
             rationale := "Low friction tolerance requires streamlined flow to prevent cart abandonment" }]
    ∧ (⟨"Checkout step reduction", "+8.0%"⟩ : AppliedFactor)
        ∈ (calculate_heuristic_lift
            ⟨(rule_based_adaptation dims rules base_spec price_band).modules,
              (rule_based_adaptation dims rules base_spec price_band).flow⟩
            audit).applied_factors := by
  have hlow : (dictLookup "friction_tolerance" dims).getD 50 ≤ 40 := by
    rw [hfric]
    norm_num
  have hflow : (rule_based_adaptation dims rules base_spec price_band).flow
      = base_spec.baseline_flow.filterMap (uxFlowMap dims) := by
    have hproj : (rule_based_adaptation dims rules base_spec price_band).flow
        = if (dictLookup "friction_tolerance" dims).getD 50 ≤ 40 then
            base_spec.baseline_flow.foldl (fun acc step =>
              if step.step_id = "shipping" then acc ++ [combinedExpressStep dims]
              else if step.step_id ≠ "payment" then
                acc ++ [{ step with adaptations := [] }]
              else acc) []
          else base_spec.baseline_flow.map
            (fun step => { step with adaptations := [] }) := rfl
    rw [hproj, if_pos hlow]
    simpa using ux_flow_foldl dims base_spec.baseline_flow []
  have hshipmem : ∃ s ∈ base_spec.baseline_flow, s.step_id = "shipping" := by
    have hne : base_spec.baseline_flow.filter (fun s => s.step_id == "shipping") ≠ [] := by
      intro hc
      rw [hc] at hship
      simp at hship
    obtain ⟨s, hs⟩ := List.exists_mem_of_ne_nil _ hne
    have := List.mem_filter.mp hs
    exact ⟨s, this.1, by simpa using this.2⟩
  obtain ⟨s0, hs0, hid0⟩ := hshipmem
  have hmem : combinedExpressStep dims
      ∈ (rule_based_adaptation dims rules base_spec price_band).flow := by
    rw [hflow]
    exact uxFlow_express_mem dims _ s0 hs0 hid0
  refine ⟨?_, hmem, ?_, ?_, ?_⟩
  · rw [hflow, uxFlow_express_count dims _ hnoexp, hship]
  · rw [hflow]
    exact uxFlow_no_ship_pay dims _
  · unfold combinedExpressStep
    rw [hfric]
    rfl
  · apply heuristic_fires_checkout
    apply List.any_eq_true.mpr
    exact ⟨combinedExpressStep dims, hmem, by simp [combinedExpressStep]⟩

/-- A low-friction dimension profile (the repository's Guatemala test
fixture: friction_tolerance = 35). -/
def lowFrictionDims : List (String × ℚ) :=
  [("uncertainty_avoidance", 55), ("collectivism", 72),
   ("authority_distance", 68), ("context_level", 70),
   ("price_sensitivity", 82), ("trust_need", 75),
   ("friction_tolerance", 35)]

/-- A baseline spec whose flow carries distinct shipping and payment
steps. -/
def demoBaseSpec : BaseSpec :=
  { product_category := "electronics"
    baseline_flow :=
      [{ step_id := "browse", name := "Browse", description := "Product browsing" },
       { step_id := "detail", name := "Product Detail", description := "Product detail page" },
       { step_id := "cart", name := "Cart", description := "Shopping cart" },
       { step_id := "shipping", name := "Shipping", description := "Shipping details" },
       { step_id := "payment", name := "Payment", description := "Payment details" },
       { step_id := "confirm", name := "Confirmation", description := "Order confirmation" }] }

theorem C8_low_friction_merge_witness :
    dictLookup "friction_tolerance" lowFrictionDims = some 35
    ∧ ((demoBaseSpec.baseline_flow.filter
        (fun s => s.step_id == "shipping")).length = 1)
    ∧ (∀ s ∈ demoBaseSpec.baseline_flow, s.step_id ≠ "express_checkout")
    ∧ ((((rule_based_adaptation lowFrictionDims [] demoBaseSpec "mid").flow.filter
          (fun s => s.step_id == "express_checkout")).length = 1)
      ∧ combinedExpressStep lowFrictionDims
          ∈ (rule_based_adaptation lowFrictionDims [] demoBaseSpec "mid").flow
      ∧ (∀ s ∈ (rule_based_adaptation lowFrictionDims [] demoBaseSpec "mid").flow,
          s.step_id ≠ "shipping" ∧ s.step_id ≠ "payment")
      ∧ (combinedExpressStep lowFrictionDims).adaptations
          = [{ change := "Combined shipping and payment steps"
               dimension_driver := "friction_tolerance=35"
               rationale := "Low friction tolerance requires streamlined flow to prevent cart abandonment" }]
      ∧ (⟨"Checkout step reduction", "+8.0%"⟩ : AppliedFactor)
          ∈ (calculate_heuristic_lift
              ⟨(rule_based_adaptation lowFrictionDims [] demoBaseSpec "mid").modules,
                (rule_based_adaptation lowFrictionDims [] demoBaseSpec "mid").flow⟩
              (some 80)).applied_factors) :=
  ⟨by decide, by decide, by decide,
    C8_low_friction_merge lowFrictionDims [] demoBaseSpec "mid" (some 80)
      (by decide) (by decide) (by decide)⟩

/-- The outcome of one enrichment-gateway call attempt, covering every
path through `LLMClient.generate_structured`: client not configured,
`json.JSONDecodeError` while parsing the response, any other exception,
empty response content, and successfully parsed JSON content (represented
by its top-level keys). -/
inductive LLMCall where
  | notConfigured
  | jsonDecodeError (msg : String)
  | apiException (msg : String)
  | emptyContent
  | parsedContent (keys : List String)
deriving DecidableEq

/-- The dict returned by `LLMClient.generate_structured`: the
`_fallback_response` dict `{"rationale": ..., "fallback": True}`, an error
dict `{"error": ..., "rationale": ...}` (note: NO `"fallback"` key), or the
parsed JSON object. -/
inductive GSDict where
  | fallbackResp (rationale : String)
  | errorResp (error : String) (rationale : String)
  | okResp (keys : List String)
deriving DecidableEq

/-- `LLMClient.generate_structured`: the not-configured path returns the
fallback dict; JSON decode failures, other exceptions and empty content
all return error dicts without a `"fallback"` key; parsed content is
returned as-is.  The function is total — unavailability never raises. -/
def generate_structured : LLMCall → GSDict
  | .notConfigured => .fallbackResp "Generated using fallback mode (Azure OpenAI not configured). Configure AZURE_OPENAI_ENDPOINT and AZURE_OPENAI_API_KEY for full functionality."
  | .jsonDecodeError msg => .errorResp msg "Failed to parse LLM response as JSON"
  | .apiException msg => .errorResp msg ("LLM call failed: " ++ msg)
  | .emptyContent => .errorResp "Empty response from LLM" "Fallback due to empty response"
  | .parsedContent keys => .okResp keys

/-- Truthiness of `result.get("fallback")`.  For a parsed JSON object this
is modelled by key presence (a parsed payload carrying a falsy
`"fallback"` value is not distinguished; the claims only concern the
unavailability and malformed signals, which have no such key). -/
def gsGetFallbackTruthy : GSDict → Bool
  | .fallbackResp _ => true
  | .errorResp _ _ => false
  | .okResp keys => keys.contains "fallback"

/-- `key in result` on the returned dict. -/
def gsContainsKey (d : GSDict) (k : String) : Bool :=
  match d with
  | .fallbackResp _ => k == "rationale" || k == "fallback"
  | .errorResp _ _ => k == "error" || k == "rationale"
  | .okResp keys => keys.contains k

/-- A stage's returned output: either the gateway's dict passed through
(or merged with it, for the enriched Impact-Prediction branch), or the
stage's deterministic rule-based fallback value. -/
inductive StageOut (α : Type) where
  | fromGateway (d : GSDict)
  | fromFallback (a : α)
deriving DecidableEq

/-- `UXAdaptationAgent.adapt` lines 121-124:
`if result.get("fallback"): result = self._rule_based_adaptation(...)`. -/
def ux_adapt_dispatch {α : Type} (result : GSDict) (fallback : α) : StageOut α :=
  if gsGetFallbackTruthy result then .fromFallback fallback
  else .fromGateway result

/-- `CopyFramingAgent.generate` lines 105-106: same sentinel check. -/
def copy_generate_dispatch {α : Type} (result : GSDict) (fallback : α) :
    StageOut α :=
  if gsGetFallbackTruthy result then .fromFallback fallback
  else .fromGateway result

/-- `ComplianceAuditorAgent.audit` lines 111-112: same sentinel check. -/
def audit_dispatch {α : Type} (result : GSDict) (fallback : α) : StageOut α :=
  if gsGetFallbackTruthy result then .fromFallback fallback
  else .fromGateway result

/-- `ExperimentationAgent.predict` lines 137-150:
`if not llm_result.get("fallback") and "confidence_level" in llm_result:`
merge with the LLM result, else return the heuristic. -/
def predict_dispatch {α : Type} (llm_result : GSDict) (heuristic : α) :
    StageOut α :=
  if !gsGetFallbackTruthy llm_result
      && gsContainsKey llm_result "confidence_level" then
    .fromGateway llm_result
  else .fromFallback heuristic

/-- Does the stage's returned output carry the gateway's error dict? -/
def surfacesError {α : Type} : StageOut α → Bool
  | .fromGateway (.errorResp _ _) => true
  | _ => false

/-- C4 counterexample: a malformed (non-parseable) gateway response makes
`generate_structured` return an error dict WITHOUT the `"fallback"` key,
so the UX-Adaptation stage does not substitute its rule-based fallback —
it returns the error dict as its own output — while the unavailability
signal does substitute the fallback.  Malformed output and unavailability
are therefore not handled identically, and the malformed response is
surfaced in the stage's returned output. -/
theorem C4_malformed_surfaced_counterexample :
    generate_structured (.jsonDecodeError "Expecting value: line 1 column 1 (char 0)")
      = .errorResp "Expecting value: line 1 column 1 (char 0)"
          "Failed to parse LLM response as JSON"
    ∧ ux_adapt_dispatch
        (generate_structured (.jsonDecodeError "Expecting value: line 1 column 1 (char 0)"))
        (rule_based_adaptation lowFrictionDims [] demoBaseSpec "mid")
      = .fromGateway (.errorResp "Expecting value: line 1 column 1 (char 0)"
          "Failed to parse LLM response as JSON")
    ∧ surfacesError (ux_adapt_dispatch
        (generate_structured (.jsonDecodeError "Expecting value: line 1 column 1 (char 0)"))
        (rule_based_adaptation lowFrictionDims [] demoBaseSpec "mid")) = true
    ∧ ux_adapt_dispatch (generate_structured .notConfigured)
        (rule_based_adaptation lowFrictionDims [] demoBaseSpec "mid")
      = .fromFallback (rule_based_adaptation lowFrictionDims [] demoBaseSpec "mid") :=
  ⟨rfl, rfl, rfl, rfl⟩

/-- C4 (amended): the unavailability signal ("service not configured")
routes every stage (UX-Adaptation, Copy-Framing, Compliance-Audit,
Impact-Prediction) to its deterministic rule-based fallback and never
surfaces as an error; but a malformed/non-parseable structured result is
handled identically to unavailability ONLY by Impact-Prediction (whose
structural `"confidence_level"` check rejects the error dict) — the
UX-Adaptation, Copy-Framing and Compliance-Audit stages return the
gateway's error dict as their own output instead of falling back. -/
theorem C4_fallback_dispatch_amended {α : Type} (fb : α) (msg : String) :
    ux_adapt_dispatch (generate_structured .notConfigured) fb = .fromFallback fb
    ∧ copy_generate_dispatch (generate_structured .notConfigured) fb = .fromFallback fb
    ∧ audit_dispatch (generate_structured .notConfigured) fb = .fromFallback fb
    ∧ predict_dispatch (generate_structured .notConfigured) fb = .fromFallback fb
    ∧ predict_dispatch (generate_structured (.jsonDecodeError msg)) fb = .fromFallback fb
    ∧ predict_dispatch (generate_structured .emptyContent) fb = .fromFallback fb
    ∧ predict_dispatch (generate_structured (.apiException msg)) fb = .fromFallback fb
    ∧ ux_adapt_dispatch (generate_structured (.jsonDecodeError msg)) fb
        = .fromGateway (.errorResp msg "Failed to parse LLM response as JSON")
    ∧ copy_generate_dispatch (generate_structured (.jsonDecodeError msg)) fb
        = .fromGateway (.errorResp msg "Failed to parse LLM response as JSON")
    ∧ audit_dispatch (generate_structured (.jsonDecodeError msg)) fb
        = .fromGateway (.errorResp msg "Failed to parse LLM response as JSON") :=
  ⟨rfl, rfl, rfl, rfl, rfl, rfl, rfl, rfl, rfl, rfl⟩

/-- `self._store[variant_id] = variant` on a Python dict: update in place
if the key exists, else append. -/
def dictInsert {α : Type} (d : List (String × α)) (k : String) (v : α) :
    List (String × α) :=
  if k ∈ dictKeys d then
    d.map (fun kv => if kv.1 = k then (kv.1, v) else kv)
  else d ++ [(k, v)]

/-- `VariantStore.store` (the lock only serializes access; the
single-threaded semantics is the dict assignment). -/
def variantStore_store {α : Type} (s : List (String × α)) (variant_id : String)
    (variant : α) : List (String × α) :=
  dictInsert s variant_id variant

/-- `VariantStore.get`: `self._store.get(variant_id)` — `None` when
absent. -/
def variantStore_get {α : Type} (s : List (String × α)) (variant_id : String) :
    Option α :=
  dictLookup variant_id s

/-- Replay a sequence of `store` calls against an initially empty store. -/
def applyStores {α : Type} (ops : List (String × α)) : List (String × α) :=
  ops.foldl (fun s op => variantStore_store s op.1 op.2) []

/-- Specification-side "most recent store for this id": the last matching
value in the op sequence, `none` if the id was never stored. -/
def lastStored {α : Type} : List (String × α) → String → Option α
  | [], _ => none
  | op :: rest, k =>
    match lastStored rest k with
    | some v => some v
    | none => if op.1 = k then some op.2 else none

theorem lookup_map_insert_self {α : Type} {d : List (String × α)} {k : String}
    (v : α) (hk : k ∈ dictKeys d) :
    dictLookup k (d.map (fun kv => if kv.1 = k then (kv.1, v) else kv))
      = some v := by
  induction d with
  | nil => simp [dictKeys] at hk
  | cons kv0 rest ih =>
    by_cases h : kv0.1 = k
    · simp [dictLookup, h]
    · simp only [List.map_cons, if_neg h, dictLookup, h, if_false]
      simp [dictKeys] at hk
      rcases hk with hk | hk
      · exact absurd hk.symm h
      · exact ih (by simp [dictKeys, hk])

theorem lookup_map_insert_ne {α : Type} {k k' : String} (v : α) (hne : k' ≠ k) :
    ∀ d : List (String × α),
      dictLookup k' (d.map (fun kv => if kv.1 = k then (kv.1, v) else kv))
        = dictLookup k' d := by
  intro d
  induction d with
  | nil => rfl
  | cons kv0 rest ih =>
    show dictLookup k' ((if kv0.1 = k then (kv0.1, v) else kv0) :: _)
        = dictLookup k' (kv0 :: rest)
    by_cases h : kv0.1 = k
    · rw [if_pos h]
      have hne2 : ¬ kv0.1 = k' := fun he => hne (he.symm.trans h)
      show (if kv0.1 = k' then some v else _) = _
      rw [if_neg hne2, dictLookup, if_neg hne2, ih]
    · rw [if_neg h]
      show (if kv0.1 = k' then some kv0.2 else _) = _
      rw [dictLookup]
      by_cases h2 : kv0.1 = k'
      · rw [if_pos h2, if_pos h2]
      · rw [if_neg h2, if_neg h2, ih]

theorem lookup_append_single_self {α : Type} (k : String) (v : α) :
    ∀ d : List (String × α), k ∉ dictKeys d →
      dictLookup k (d ++ [(k, v)]) = some v := by
  intro d
  induction d with
  | nil => intro _; simp [dictLookup]
  | cons kv0 rest ih =>
    intro hk
    simp [dictKeys] at hk
    rw [List.cons_append, dictLookup, if_neg (fun he => hk.1 he.symm)]
    exact ih (by simp [dictKeys, hk.2])

theorem lookup_append_single_ne {α : Type} (k k' : String) (v : α)
    (hne : k' ≠ k) :
    ∀ d : List (String × α),
      dictLookup k' (d ++ [(k, v)]) = dictLookup k' d := by
  intro d
  induction d with
  | nil =>
    show (if k = k' then some v else dictLookup k' []) = none
    rw [if_neg (fun he => hne he.symm)]
    rfl
  | cons kv0 rest ih =>
    rw [List.cons_append, dictLookup, dictLookup]
    by_cases h : kv0.1 = k'
    · rw [if_pos h, if_pos h]
    · rw [if_neg h, if_neg h, ih]

theorem dictInsert_lookup_self {α : Type} (d : List (String × α)) (k : String)
    (v : α) : dictLookup k (dictInsert d k v) = some v := by
  unfold dictInsert
  split
  · exact lookup_map_insert_self v (by assumption)
  · exact lookup_append_single_self k v d (by assumption)

theorem dictInsert_lookup_ne {α : Type} (d : List (String × α)) {k k' : String}
    (v : α) (hne : k' ≠ k) :
    dictLookup k' (dictInsert d k v) = dictLookup k' d := by
  unfold dictInsert
  split
  · exact lookup_map_insert_ne v hne d
  · exact lookup_append_single_ne k k' v hne d

theorem store_get_general {α : Type} (ops : List (String × α)) :
    ∀ (s : List (String × α)) (k : String),
      variantStore_get
          (ops.foldl (fun s op => variantStore_store s op.1 op.2) s) k
        = (match lastStored ops k with
            | some v => some v
            | none => variantStore_get s k) := by
  induction ops with
  | nil => intro s k; rfl
  | cons op rest ih =>
    intro s k
    rw [List.foldl_cons, ih (variantStore_store s op.1 op.2) k]
    cases hr : lastStored rest k with
    | some v => simp [lastStored, hr]
    | none =>
      simp only [lastStored, hr]
      by_cases hk : op.1 = k
      · rw [if_pos hk]
        show variantStore_get (variantStore_store s op.1 op.2) k = some op.2
        unfold variantStore_get variantStore_store
        rw [← hk]
        exact dictInsert_lookup_self s op.1 op.2
      · rw [if_neg hk]
        show variantStore_get (variantStore_store s op.1 op.2) k
            = variantStore_get s k
        unfold variantStore_get variantStore_store
        exact dictInsert_lookup_ne s op.2 (fun he => hk he.symm)

/-- C10: for every sequence of `store` calls replayed against an empty
store and every id, `get` returns the value of the most recent `store`
with that id (a repeated id replaces the earlier value; `store` is total
and never rejects a repeated id), and `None` for an id that was never
stored. -/
theorem C10_variantStore_semantics {α : Type} (ops : List (String × α))
    (k : String) :
    variantStore_get (applyStores ops) k = lastStored ops k := by
  have h := store_get_general ops [] k
  unfold applyStores
  rw [h]
  cases lastStored ops k <;> rfl

end CultureBridge
